import Mathlib

/-!
# RedisGraph operator engine: NodeByIdSeek and Project

A shallow embedding of
* `src/execution_plan/runtimes/interpreted/ops/op_node_by_id_seek.c`
* `src/execution_plan/ops/op_project.c`

Machine integers (`uint64_t`, `size_t`) are natural numbers reduced modulo
`2 ^ 64` wherever the C code performs arithmetic on them.  Mutable C state is
passed explicitly: every operation takes the state it reads and returns the
state it leaves behind.
-/

namespace RedisGraph

/-! ## Machine integers -/

/-- Number of values of a 64-bit unsigned integer (`uint64_t`, `size_t`, and the entity identifiers `NodeID`). -/
def UINT64_SIZE : Nat := 2 ^ 64

/-- Largest 64-bit unsigned value, `UINT64_MAX`. -/
def UINT64_MAX : Nat := 2 ^ 64 - 1

/-! ## Graph storage collaborator -/

/-- Attribute set an entity slot points to (the non-NULL `entity` pointer of a node). -/
abbrev Entity := Nat

/-- A node handle as the operators see it: the `entity` pointer (NULL when the
handle is empty) and the node identifier. -/
structure Node where
  entity : Option Entity
  id : Nat
deriving DecidableEq, Repr

/-- An edge handle, the sibling of `Node` for relationships. -/
structure Edge where
  entity : Option Entity
  id : Nat
deriving DecidableEq, Repr

/-- The identifier of an empty handle, `INVALID_ENTITY_ID`. -/
def INVALID_ENTITY_ID : Nat := UINT64_MAX

/-- The empty node handle built by the `GE_NEW_NODE()` initialiser: no entity. -/
def GE_NEW_NODE : Node := { entity := none, id := INVALID_ENTITY_ID }

/-- Modelled from the spec: the graph storage collaborator, whose code is outside
the operator sources.  The node store is a block of identifier slots, both
deleted and live; slot `i` is `none` when identifier `i` has no live entity. -/
structure Graph where
  nodes : List (Option Entity)
deriving DecidableEq, Repr

/-- Modelled from the spec: `UncompactedEntityCount() -> integer`, the number
of node slots, deleted and live, returned as a `size_t`. -/
def Graph_UncompactedNodeCount (g : Graph) : Nat := g.nodes.length % UINT64_SIZE

/-- Modelled from the spec: `GetNodeById(id) -> Node|absent`.  On success the
handle carries the entity found at `id`; an identifier past the last slot or
a deleted slot is absent. -/
def Graph_GetNode (g : Graph) (id : Nat) : Option Node :=
  match g.nodes[id]? with
  | some (some e) => some { entity := some e, id := id }
  | _ => none

/-! ## Tagged values -/

/-- Who owns the allocation behind a value (`SIAllocation`). -/
inductive SIAllocation where
  | M_NONE
  | M_SELF
  | M_VOLATILE
  | M_CONST
deriving DecidableEq, Repr

/-- Modelled from the spec: the kinds of tagged value, the `SIType` enumeration. -/
inductive SIType where
  | T_MAP
  | T_NODE
  | T_EDGE
  | T_ARRAY
  | T_PATH
  | T_DATETIME
  | T_LOCALDATETIME
  | T_DATE
  | T_TIME
  | T_LOCALTIME
  | T_DURATION
  | T_STRING
  | T_BOOL
  | T_INT64
  | T_DOUBLE
  | T_NULL
  | T_PTR
  | T_POINT
deriving DecidableEq, Repr

/-- Modelled from the spec: the bit each kind stands for, so that kinds can be
tested against a mask. -/
def SIType.flag : SIType → Nat
  | T_MAP => 1 <<< 0
  | T_NODE => 1 <<< 1
  | T_EDGE => 1 <<< 2
  | T_ARRAY => 1 <<< 3
  | T_PATH => 1 <<< 4
  | T_DATETIME => 1 <<< 5
  | T_LOCALDATETIME => 1 <<< 6
  | T_DATE => 1 <<< 7
  | T_TIME => 1 <<< 8
  | T_LOCALTIME => 1 <<< 9
  | T_DURATION => 1 <<< 10
  | T_STRING => 1 <<< 11
  | T_BOOL => 1 <<< 12
  | T_INT64 => 1 <<< 13
  | T_DOUBLE => 1 <<< 14
  | T_NULL => 1 <<< 15
  | T_PTR => 1 <<< 16
  | T_POINT => 1 <<< 17

/-- The value of a double, kept exact as the fraction `num / den`, `den > 0`. -/
structure Double where
  num : Int
  den : Nat
deriving DecidableEq, Repr

/-- Modelled from the spec: the tagged value, with its kind, its allocation
mode and its payload, one field per member of the value union: the integer
(also the boolean, 0 or 1), the double (its exact value), the string, the
node and the edge.  Only the member the kind selects is meaningful. -/
structure SIValue where
  type : SIType
  allocation : SIAllocation
  longval : Int
  doubleval : Double
  stringval : String
  node : Node
  edge : Edge
deriving DecidableEq, Repr

/-- The graph-entity kinds: `#define SI_GRAPHENTITY (T_NODE | T_EDGE)`. -/
def SI_GRAPHENTITY : Nat := SIType.T_NODE.flag ||| SIType.T_EDGE.flag

/-- Modelled from the spec: persisting detaches a value from storage it may
reference.  Only a volatile value changes: it becomes a copy the holder owns;
its type and payload are kept. -/
def SIValue_Persist (v : SIValue) : SIValue :=
  if v.allocation = SIAllocation.M_VOLATILE then { v with allocation := SIAllocation.M_SELF } else v

/-! ## Records -/

/-- One slot of a record: its runtime kind tag together with the value. -/
inductive Entry where
  | REC_TYPE_UNKNOWN
  | REC_TYPE_SCALAR (s : SIValue)
  | REC_TYPE_NODE (n : Node)
  | REC_TYPE_EDGE (e : Edge)
deriving DecidableEq, Repr

/-- Modelled from the spec: a record is an ordered, fixed-size array of slots
addressed by integer offsets. -/
structure Record where
  entries : List Entry
deriving DecidableEq, Repr

/-- Modelled from the spec: `New(mapping) -> Record`, zero-initialised slots
sized to the mapping. -/
def Record_New (len : Nat) : Record := { entries := List.replicate len Entry.REC_TYPE_UNKNOWN }

/-- Modelled from the spec: `AddNode(r, offset, node)` overwrites the slot and
tags its kind. -/
def Record_AddNode (r : Record) (idx : Nat) (n : Node) : Record :=
  { entries := r.entries.set idx (Entry.REC_TYPE_NODE n) }

/-- Modelled from the spec: `AddEdge(r, offset, edge)` overwrites the slot and
tags its kind. -/
def Record_AddEdge (r : Record) (idx : Nat) (e : Edge) : Record :=
  { entries := r.entries.set idx (Entry.REC_TYPE_EDGE e) }

/-- Modelled from the spec: `AddScalar(r, offset, value)` overwrites the slot
and tags its kind. -/
def Record_AddScalar (r : Record) (idx : Nat) (v : SIValue) : Record :=
  { entries := r.entries.set idx (Entry.REC_TYPE_SCALAR v) }

/-- Modelled from the spec: `Record_Add` inserts a value of any kind; node and
edge values are copied into the slot as entities, every other kind as a scalar. -/
def Record_Add (r : Record) (idx : Nat) (v : SIValue) : Record :=
  match v.type with
  | SIType.T_NODE => Record_AddNode r idx v.node
  | SIType.T_EDGE => Record_AddEdge r idx v.edge
  | _ => Record_AddScalar r idx v

/-- Modelled from the spec: `Clone(r) -> Record`, an independent slot array
with the same slot contents. -/
def Record_Clone (r : Record) : Record := { entries := r.entries }

/-! ## Execution plan and operator base -/

/-- The part of an execution plan the operators use: the shared name to offset
mapping, a name sitting at its offset. -/
structure ExecutionPlan where
  record_map : List String
deriving DecidableEq, Repr

/-- Modelled from the spec: `Modifies` registers an output name against the
shared mapping and returns its slot offset: the offset the name already has,
or the next free one. -/
def OpBase_Modifies (plan : ExecutionPlan) (name : String) : Nat × ExecutionPlan :=
  if name ∈ plan.record_map then (plan.record_map.indexOf name, plan)
  else (plan.record_map.length, { record_map := plan.record_map ++ [name] })

/-- Modelled from the spec: a record created by an operator, sized to the
mapping of its plan (`OpBase_CreateRecord`, `RT_OpBase_CreateRecord`). -/
def OpBase_CreateRecord (plan : ExecutionPlan) : Record := Record_New plan.record_map.length

/-- Modelled from the spec: a child operator seen through `Consume`: the rows
it has yet to yield, end-of-stream once they are used up and on every later
pull; `pulls` counts the calls made to it. -/
structure ChildOp where
  rows : List Record
  pulls : Nat
deriving DecidableEq, Repr

/-- Pull one record from a child (`OpBase_Consume`, `RT_OpBase_Consume`);
`none` is the NULL end-of-stream sentinel. -/
def OpBase_Consume (c : ChildOp) : Option Record × ChildOp :=
  match c.rows with
  | [] => (none, { c with pulls := c.pulls + 1 })
  | r :: rest => (some r, { rows := rest, pulls := c.pulls + 1 })

/-! ## NodeByIdSeek -/

/-- Range descriptor handed over by the planner: `UnsignedRange`. -/
structure UnsignedRange where
  min : Nat
  max : Nat
  include_min : Bool
  include_max : Bool
deriving DecidableEq, Repr

/-- Modelled from the spec: the status an operator call reports (`OpResult`,
`RT_OpResult`). -/
inductive RT_OpResult where
  | OP_DEPLETED
  | OP_REFRESH
  | OP_OK
  | OP_ERR
deriving DecidableEq, Repr

/-- Which consume function the operator base dispatches to. -/
inductive SeekConsumeFn where
  | NodeByIdSeekConsume
  | NodeByIdSeekConsumeFromChild
deriving DecidableEq, Repr

/-- Operator state: `RT_NodeByIdSeek`, with the two fields of its operator base
that the code reads (`childCount`) or rewires (`consume`).  The field `alias_`
is the `alias` of the source. -/
structure RT_NodeByIdSeek where
  childCount : Nat
  consume : SeekConsumeFn
  child_record : Option Record
  alias_ : String
  currentId : Nat
  minId : Nat
  maxId : Nat
  nodeRecIdx : Nat
deriving DecidableEq, Repr

/-- Checks to see if operation index is within its bounds. -/
def _outOfBounds (op : RT_NodeByIdSeek) : Bool :=
  if op.currentId > op.maxId then true else false

/-- Constructor.  The new operator has no child yet; the plan comes back with
the alias registered. -/
def RT_NewNodeByIdSeekOp (plan : ExecutionPlan) (alias_ : String) (id_range : UnsignedRange) :
    RT_NodeByIdSeek × ExecutionPlan :=
  let minId := if id_range.include_min then id_range.min else (id_range.min + 1) % UINT64_SIZE
  let maxId := if id_range.include_max then id_range.max
    else (id_range.max + UINT64_SIZE - 1) % UINT64_SIZE
  let reg := OpBase_Modifies plan alias_
  ({ childCount := 0
     consume := SeekConsumeFn.NodeByIdSeekConsume
     child_record := none
     alias_ := alias_
     currentId := minId
     minId := minId
     maxId := maxId
     nodeRecIdx := reg.1 }, reg.2)

/-- Init: clamp `maxId` with `MIN(node_count - 1, op->maxId)`, the subtraction
being a `size_t` one, and switch to the child-driven consume when there is a
child.  The status returned is always `OP_OK`; the state left is what is modelled. -/
def NodeByIdSeekInit (g : Graph) (op : RT_NodeByIdSeek) : RT_NodeByIdSeek :=
  let node_count := Graph_UncompactedNodeCount g
  let op1 := { op with maxId := min ((node_count + UINT64_SIZE - 1) % UINT64_SIZE) op.maxId }
  if op1.childCount > 0 then { op1 with consume := SeekConsumeFn.NodeByIdSeekConsumeFromChild }
  else op1

/-- The `while` loop of `_SeekNextNode`, run for at most `fuel` tests of its
condition; `none` when the fuel runs out before the loop is left. -/
def seekLoop (g : Graph) : Nat → RT_NodeByIdSeek → Node → Option (Node × RT_NodeByIdSeek)
  | 0, _, _ => none
  | fuel + 1, op, n =>
    if _outOfBounds op then some (n, op)
    else
      match Graph_GetNode g op.currentId with
      | some found => some (found, op)
      | none => seekLoop g fuel { op with currentId := (op.currentId + 1) % UINT64_SIZE } n

/-- Seek the next live node.  The loop is given `2 ^ 64 + 1` tests: a loop that
has not been left by then has seen every cursor value and never ends, which
is the `none` result. -/
def _SeekNextNode (g : Graph) (op : RT_NodeByIdSeek) : Option (Node × RT_NodeByIdSeek) :=
  match seekLoop g (UINT64_SIZE + 1) op GE_NEW_NODE with
  | none => none
  | some (n, op1) => some (n, { op1 with currentId := (op1.currentId + 1) % UINT64_SIZE })

/-- Reset: rewind the cursor and report `OP_OK`.  Only the operator is
touched: neither its child nor the storage is an argument. -/
def NodeByIdSeekReset (op : RT_NodeByIdSeek) : RT_OpResult × RT_NodeByIdSeek :=
  (RT_OpResult.OP_OK, { op with currentId := op.minId })

/-- Consume without a child.  The outer `none` means the call never returns;
the inner `none` is the NULL end-of-stream sentinel. -/
def NodeByIdSeekConsume (plan : ExecutionPlan) (g : Graph) (op : RT_NodeByIdSeek) :
    Option (Option Record × RT_NodeByIdSeek) :=
  match _SeekNextNode g op with
  | none => none
  | some (n, op1) =>
    if n.entity = none then some (none, op1)
    else
      let r := OpBase_CreateRecord plan
      some (some (Record_AddNode r op1.nodeRecIdx n), op1)

/-- Clone: rebuild the operator from the current bounds, both inclusive. -/
def NodeByIdSeekClone (plan : ExecutionPlan) (op : RT_NodeByIdSeek) :
    RT_NodeByIdSeek × ExecutionPlan :=
  let range : UnsignedRange :=
    { min := op.minId, max := op.maxId, include_min := true, include_max := true }
  RT_NewNodeByIdSeekOp plan op.alias_ range

/-- What a child-driven NodeByIdSeek works on: its own state, its child, the
records handed to `RT_OpBase_DeleteRecord` so far and the records handed to
`RT_OpBase_CloneRecord` so far, oldest first. -/
structure SeekState where
  op : RT_NodeByIdSeek
  child : ChildOp
  deleted : List Record
  cloned : List Record
deriving DecidableEq, Repr

/-- Modelled from the spec: `Clone(r) -> Record` as the operator calls it
(`RT_OpBase_CloneRecord`): a record with an independent slot array holding
the same slot contents.  `cloned` is the log of the records cloned so far,
oldest first; the record handed in is appended to it. -/
def RT_OpBase_CloneRecord (cloned : List Record) (r : Record) : Record × List Record :=
  (Record_Clone r, cloned ++ [r])

/-- The second half of `NodeByIdSeekConsumeFromChild`, from the first
`_SeekNextNode` on, entered with the child record `held` in `op.child_record`. -/
def NodeByIdSeekConsumeFromChild_seek (g : Graph) (s : SeekState) (held : Record) :
    Option (Option Record × SeekState) :=
  match _SeekNextNode g s.op with
  | none => none
  | some (n, op1) =>
    if n.entity = none then
      -- Failed to retrieve a node: free old record, pull a new record from child.
      let deleted := s.deleted ++ [held]
      let pulled := OpBase_Consume s.child
      match pulled.1 with
      | none =>
        some (none, { op := { op1 with child_record := none }, child := pulled.2,
                      deleted := deleted, cloned := s.cloned })
      | some fresh =>
        -- Reset iterator and evaluate again.
        let op2 := (NodeByIdSeekReset { op1 with child_record := some fresh }).2
        match _SeekNextNode g op2 with
        | none => none
        | some (n2, op3) =>
          if n2.entity = none then
            some (none, { op := op3, child := pulled.2, deleted := deleted, cloned := s.cloned })
          else
            -- Clone the held Record, as it will be freed upstream.
            let r := RT_OpBase_CloneRecord s.cloned fresh
            some (some (Record_AddNode r.1 op3.nodeRecIdx n2),
              { op := op3, child := pulled.2, deleted := deleted, cloned := r.2 })
    else
      -- Clone the held Record, as it will be freed upstream.
      let r := RT_OpBase_CloneRecord s.cloned held
      some (some (Record_AddNode r.1 op1.nodeRecIdx n), { s with op := op1, cloned := r.2 })

/-- Consume with a driving child.  The outer `none` means the call never
returns; the inner `none` is the NULL end-of-stream sentinel. -/
def NodeByIdSeekConsumeFromChild (g : Graph) (s : SeekState) :
    Option (Option Record × SeekState) :=
  match s.op.child_record with
  | none =>
    let pulled := OpBase_Consume s.child
    match pulled.1 with
    | none => some (none, { s with child := pulled.2 })
    | some fresh =>
      NodeByIdSeekConsumeFromChild_seek g
        { s with op := (NodeByIdSeekReset { s.op with child_record := some fresh }).2,
                 child := pulled.2 }
        fresh
  | some held => NodeByIdSeekConsumeFromChild_seek g s held

/-- The results of `k` successive calls of `NodeByIdSeekConsume` against an
unchanged storage, and the state they leave; `none` when a call never returns. -/
def NodeByIdSeekConsume_calls (plan : ExecutionPlan) (g : Graph) :
    Nat → RT_NodeByIdSeek → Option (List (Option Record) × RT_NodeByIdSeek)
  | 0, op => some ([], op)
  | k + 1, op =>
    match NodeByIdSeekConsume plan g op with
    | none => none
    | some (r, op1) =>
      match NodeByIdSeekConsume_calls plan g k op1 with
      | none => none
      | some (rs, op2) => some (r :: rs, op2)

/-- The live nodes with an identifier in `[lo, hi]`, by ascending identifier. -/
def liveNodesIn (g : Graph) (lo hi : Nat) : List Node :=
  (List.range' lo (hi + 1 - lo)).filterMap (Graph_GetNode g)

/-- The record of `len` slots that holds node `n` at slot `idx` and nothing else. -/
def recordWithOnlyNode (len idx : Nat) (n : Node) : Record :=
  { entries := (List.range len).map
      (fun j => if j = idx then Entry.REC_TYPE_NODE n else Entry.REC_TYPE_UNKNOWN) }

/-- A call made on a child-less NodeByIdSeek before it is cloned. -/
inductive SeekCall where
  | init
  | consume
deriving DecidableEq, Repr

/-- The state a child-less operator is in after the given calls, made in order
against the storage `g`; `none` when one of them never returns. -/
def NodeByIdSeek_after (plan : ExecutionPlan) (g : Graph) :
    List SeekCall → RT_NodeByIdSeek → Option RT_NodeByIdSeek
  | [], op => some op
  | SeekCall.init :: rest, op => NodeByIdSeek_after plan g rest (NodeByIdSeekInit g op)
  | SeekCall.consume :: rest, op =>
    match NodeByIdSeekConsume plan g op with
    | none => none
    | some (_, op1) => NodeByIdSeek_after plan g rest op1

/-- The three identifier fields of the operator hold 64-bit values. -/
def RT_NodeByIdSeek.fits (op : RT_NodeByIdSeek) : Prop :=
  op.currentId < UINT64_SIZE ∧ op.minId < UINT64_SIZE ∧ op.maxId < UINT64_SIZE

/-- The set of identifiers a range descriptor denotes. -/
def UnsignedRange.contains (range : UnsignedRange) (id : Nat) : Prop :=
  (if range.include_min then id ≥ range.min else id > range.min) ∧
  (if range.include_max then id ≤ range.max else id < range.max)

instance (range : UnsignedRange) (id : Nat) : Decidable (range.contains id) := by
  unfold UnsignedRange.contains
  exact inferInstance

/-- Witness storage: five identifier slots, identifiers 0, 2 and 4 live. -/
def storage024 : Graph := { nodes := [some 100, none, some 102, none, some 104] }

/-- Witness storage: a single identifier slot, identifier 0 live. -/
def storage0 : Graph := { nodes := [some 100] }

/-- The empty storage: no identifier slot at all. -/
def storageEmpty : Graph := { nodes := [] }

/-- The operator built for the unbounded range `[0, UINT64_MAX]`, with one
child attached by the plan builder. -/
def seekAllWithChild : RT_NodeByIdSeek :=
  { (RT_NewNodeByIdSeekOp { record_map := [] } "n"
      { min := 0, max := UINT64_MAX, include_min := true, include_max := true }).1 with
    childCount := 1 }

/-- Witness storage: a single identifier slot, its node deleted. -/
def storageDeleted0 : Graph := { nodes := [none] }

/-- Witness state of a child-driven scan: built for `[0, 5]`, initialised on
`storage0`, nothing held yet, a child with two rows of one slot each. -/
def seekStateTwoRows : SeekState :=
  { op := NodeByIdSeekInit storage0
      { (RT_NewNodeByIdSeekOp { record_map := [] } "n"
          { min := 0, max := 5, include_min := true, include_max := true }).1 with
        childCount := 1 }
    child := { rows := [Record_New 1, Record_AddNode (Record_New 1) 0 { entity := some 7, id := 9 }],
               pulls := 0 }
    deleted := []
    cloned := [] }

/-! ## Project -/

/-- An expression of the projection, an `AR_ExpNode *` of the source.  Only
its resolved name is read by the operator; the tree itself is looked into by
the evaluator alone.  `addr` is the address of the allocation the expression
lives in: two expressions at one address are one and the same object. -/
structure AR_ExpNode where
  resolved_name : String
  tree : Nat
  addr : Nat
deriving DecidableEq, Repr

/-- Modelled from the spec: `Clone(expression) -> expression` of the expression
evaluation collaborator: an independent copy, with the same tree and the same
resolved name, in an allocation of its own.  `heap` is the next free address;
the copy comes back with the next free address after it. -/
def AR_EXP_Clone (heap : Nat) (exp : AR_ExpNode) : AR_ExpNode × Nat :=
  ({ resolved_name := exp.resolved_name, tree := exp.tree, addr := heap }, heap + 1)

/-- The array copy of `ProjectClone`, `array_clone_with_cb(exps, op->exps,
AR_EXP_Clone)`: a new array holding the clone of every element, in order. -/
def array_clone_with_cb : List AR_ExpNode → Nat → List AR_ExpNode × Nat
  | [], heap => ([], heap)
  | exp :: rest, heap =>
    let copy := AR_EXP_Clone heap exp
    let others := array_clone_with_cb rest copy.2
    (copy.1 :: others.1, others.2)

/-- What the projection loop does to a value, in program order. -/
inductive ValueEvent where
  | persisted (v : SIValue)
  | added (rec_idx : Nat) (v : SIValue)
  | freed (v : SIValue)
deriving DecidableEq, Repr

/-- Operator state: `OpProject`, with `childCount` of its operator base. -/
structure OpProject where
  childCount : Nat
  exps : List AR_ExpNode
  singleResponse : Bool
  exp_count : Nat
  record_offsets : List Nat
  r : Option Record
  projection : Option Record
deriving DecidableEq, Repr

/-- The registration loop of `NewProjectOp`: one `OpBase_Modifies` per
expression, in order, each offset appended to `record_offsets`. -/
def NewProjectOp_offsets : List AR_ExpNode → ExecutionPlan → List Nat → List Nat × ExecutionPlan
  | [], plan, record_offsets => (record_offsets, plan)
  | exp :: rest, plan, record_offsets =>
    let reg := OpBase_Modifies plan exp.resolved_name
    NewProjectOp_offsets rest reg.2 (record_offsets ++ [reg.1])

/-- Constructor.  The new operator has no child yet; the plan comes back with
the resolved names registered. -/
def NewProjectOp (plan : ExecutionPlan) (exps : List AR_ExpNode) : OpProject × ExecutionPlan :=
  let reg := NewProjectOp_offsets exps plan []
  ({ childCount := 0
     exps := exps
     singleResponse := false
     exp_count := exps.length
     record_offsets := reg.1
     r := none
     projection := none }, reg.2)

/-- What a projection works on: its own state, its child, the records handed
to `OpBase_DeleteRecord` so far and the value operations performed so far. -/
structure ProjectState where
  op : OpProject
  child : ChildOp
  deleted : List Record
  events : List ValueEvent
deriving DecidableEq, Repr

/-- The expression loop of `ProjectConsume` from index `i` on, `exps` and
`record_offsets` being what is left of the two arrays from that index:
evaluate; persist unless the type is a graph entity one; add to the
projection; free when the type is a graph entity one.  Returns the
projection and the value operations performed. -/
def ProjectConsume_loop (eval : AR_ExpNode → Record → SIValue) (r : Record) :
    List AR_ExpNode → List Nat → Record → List ValueEvent → Record × List ValueEvent
  | exp :: exps, rec_idx :: record_offsets, projection, events =>
    let v := eval exp r
    let persist := v.type.flag &&& SI_GRAPHENTITY = 0
    let v1 := if persist then SIValue_Persist v else v
    let events1 := if persist then events ++ [ValueEvent.persisted v] else events
    let projection1 := Record_Add projection rec_idx v1
    let events2 := events1 ++ [ValueEvent.added rec_idx v1]
    let events3 := if v1.type.flag &&& SI_GRAPHENTITY ≠ 0 then events2 ++ [ValueEvent.freed v1]
      else events2
    ProjectConsume_loop eval r exps record_offsets projection1 events3
  | _, _, projection, events => (projection, events)

/-- The second half of `ProjectConsume`, entered with the input record `r` in `op.r`. -/
def ProjectConsume_project (eval : AR_ExpNode → Record → SIValue) (plan : ExecutionPlan)
    (s : ProjectState) (r : Record) : Option Record × ProjectState :=
  let projection := OpBase_CreateRecord plan
  let out := ProjectConsume_loop eval r (s.op.exps.take s.op.exp_count) s.op.record_offsets
    projection s.events
  -- delete the input record, emit the projected record once
  (some out.1,
    { s with op := { s.op with r := none, projection := none }
             deleted := s.deleted ++ [r]
             events := out.2 })

/-- Consume.  `eval` is the expression evaluation collaborator
(`AR_EXP_Evaluate`); `none` is the NULL end-of-stream sentinel. -/
def ProjectConsume (eval : AR_ExpNode → Record → SIValue) (plan : ExecutionPlan)
    (s : ProjectState) : Option Record × ProjectState :=
  if s.op.childCount ≠ 0 then
    let pulled := OpBase_Consume s.child
    match pulled.1 with
    | none => (none, { s with op := { s.op with r := none }, child := pulled.2 })
    | some r =>
      ProjectConsume_project eval plan
        { s with op := { s.op with r := some r }, child := pulled.2 } r
  else
    -- Return a single record followed by NULL on the second call.
    if s.op.singleResponse then (none, s)
    else
      let r := OpBase_CreateRecord plan
      ProjectConsume_project eval plan
        { s with op := { s.op with singleResponse := true, r := some r } } r

/-- Reset: clear the single-response flag. -/
def ProjectReset (op : OpProject) : OpProject :=
  { op with singleResponse := false }

/-- What a call of `ProjectClone` leaves: the new operator, the plan it
registered its names with, the operator that was cloned as the call leaves
it, and the next free address. -/
structure ProjectCloned where
  clone : OpProject
  plan : ExecutionPlan
  original : OpProject
  heap : Nat
deriving DecidableEq, Repr

/-- Clone: clone every expression with `AR_EXP_Clone`, in order, and build a
new operator from the copies.  The operator cloned is only read. -/
def ProjectClone (plan : ExecutionPlan) (heap : Nat) (op : OpProject) : ProjectCloned :=
  let exps := array_clone_with_cb op.exps heap
  let built := NewProjectOp plan exps.1
  { clone := built.1, plan := built.2, original := op, heap := exps.2 }

/-- Free: release the expressions and the offsets, and delete the records the
operator still holds.  The freed arrays are left empty, the NULL of the source. -/
def ProjectFree (s : ProjectState) : ProjectState :=
  let s1 := { s with op := { s.op with exps := [], record_offsets := [] } }
  let s2 :=
    match s1.op.r with
    | some r => { s1 with op := { s1.op with r := none }, deleted := s1.deleted ++ [r] }
    | none => s1
  match s2.op.projection with
  | some projection =>
    { s2 with op := { s2.op with projection := none }, deleted := s2.deleted ++ [projection] }
  | none => s2

/-- The results of `k` successive calls of `ProjectConsume`, and the state they leave. -/
def ProjectConsume_calls (eval : AR_ExpNode → Record → SIValue) (plan : ExecutionPlan) :
    Nat → ProjectState → List (Option Record) × ProjectState
  | 0, s => ([], s)
  | k + 1, s =>
    let first := ProjectConsume eval plan s
    let others := ProjectConsume_calls eval plan k first.2
    (first.1 :: others.1, others.2)

/-! ## Specification vocabulary for Project -/

/-- The slot content that stands for value `v` once projected: node and edge
values as entities, any other value as the persisted scalar. -/
def projectedEntry (v : SIValue) : Entry :=
  match v.type with
  | SIType.T_NODE => Entry.REC_TYPE_NODE v.node
  | SIType.T_EDGE => Entry.REC_TYPE_EDGE v.edge
  | _ => Entry.REC_TYPE_SCALAR (SIValue_Persist v)

/-- The last expression registered at slot `j`, if any. -/
def lastExpAt (exps : List AR_ExpNode) (record_offsets : List Nat) (j : Nat) : Option AR_ExpNode :=
  (((exps.zip record_offsets).reverse).find? (fun p => p.2 == j)).map Prod.fst

/-- The projection of `r`, slot by slot: slot `j` holds the value of the last
expression registered at `j`, and is unset when there is none. -/
def projectionOf (eval : AR_ExpNode → Record → SIValue) (len : Nat) (exps : List AR_ExpNode)
    (record_offsets : List Nat) (r : Record) : Record :=
  { entries := (List.range len).map (fun j =>
      match lastExpAt exps record_offsets j with
      | some exp => projectedEntry (eval exp r)
      | none => Entry.REC_TYPE_UNKNOWN) }

/-! ## Record rendering -/

/-- A scalar of the given kind with null payloads, to be filled in. -/
def SI_Scalar (t : SIType) : SIValue :=
  { type := t, allocation := SIAllocation.M_NONE, longval := 0, doubleval := { num := 0, den := 1 }, stringval := "",
    node := GE_NEW_NODE, edge := { entity := none, id := INVALID_ENTITY_ID } }

/-- Modelled from the spec: one assignment of an update clause: the attribute
and the expression of its new value. -/
structure PropertySetCtx where
  attr_name : String
  exp : AR_ExpNode
deriving DecidableEq, Repr

/-- Modelled from the spec: an update clause as evaluated per row
(`EntityUpdateEvalCtx`): the record slot of the entity to update and the
assignments to make. -/
structure EntityUpdateEvalCtx where
  record_idx : Nat
  properties : List PropertySetCtx
deriving DecidableEq, Repr

/-- Context representing a single update to perform on an entity
(`PendingUpdateCtx`): the entity, by identifier, and its new attributes. -/
structure PendingUpdateCtx where
  ge : Nat
  attributes : List (String × SIValue)
deriving DecidableEq, Repr

/-- Modelled from the spec: the storage as the update operators see it: the
updates applied to it so far.  Only `CommitUpdates` adds to them. -/
structure GraphContext where
  applied : List PendingUpdateCtx
deriving DecidableEq, Repr

/-- What `EvalEntityUpdates` leaves behind: the storage, the two buffers of
pending updates and the error reported to the query driver, if any. -/
structure UpdateState where
  gc : GraphContext
  node_updates : List PendingUpdateCtx
  edge_updates : List PendingUpdateCtx
  error : Option String
deriving DecidableEq, Repr

/-- Modelled from the spec: `EvalEntityUpdates`, of which the sources hold the
declaration only.  Every new attribute value is evaluated against the record;
a null value is reported as an error unless `allow_null`; otherwise one pending
update is appended to the buffer of the kind of the entity.  The storage is
not written. -/
def EvalEntityUpdates (eval : AR_ExpNode → Record → SIValue) (s : UpdateState) (r : Record)
    (ctx : EntityUpdateEvalCtx) (allow_null : Bool) : UpdateState :=
  let attributes := ctx.properties.map (fun p => (p.attr_name, eval p.exp r))
  if !allow_null && attributes.any (fun a => a.2.type == SIType.T_NULL) then
    { s with error := some "Cannot merge node using null property value" }
  else
    match r.entries[ctx.record_idx]? with
    | some (Entry.REC_TYPE_NODE n) =>
      { s with node_updates := s.node_updates ++ [{ ge := n.id, attributes := attributes }] }
    | some (Entry.REC_TYPE_EDGE e) =>
      { s with edge_updates := s.edge_updates ++ [{ ge := e.id, attributes := attributes }] }
    | _ => s

/-- Modelled from the spec: `CommitUpdates` applies every staged update of one
entity kind against the storage in one pass; it is the sole point at which
the storage is written. -/
def CommitUpdates (gc : GraphContext) (updates : List PendingUpdateCtx) : GraphContext :=
  { applied := gc.applied ++ updates }

/-- Two expressions named `a` and `b`, for worked examples. -/
def expsAB : List AR_ExpNode :=
  [{ resolved_name := "a", tree := 7, addr := 0 }, { resolved_name := "b", tree := 8, addr := 1 }]

/-- An evaluator for worked examples: every expression is the integer
constant written in its tree, whatever the record. -/
def evalTree : AR_ExpNode → Record → SIValue :=
  fun exp _ => { SI_Scalar SIType.T_INT64 with longval := exp.tree }

/-- The two treatments a projected value can receive, as value operations in
program order: persisted then added, or added then freed. -/
def valueTreatment (rec_idx : Nat) (v : SIValue) : List ValueEvent :=
  if v.type.flag &&& SI_GRAPHENTITY = 0 then
    [ValueEvent.persisted v, ValueEvent.added rec_idx (SIValue_Persist v)]
  else [ValueEvent.added rec_idx v, ValueEvent.freed v]

/-- An evaluator for worked examples: every expression evaluates to null. -/
def evalNull : AR_ExpNode → Record → SIValue :=
  fun _ _ => SI_Scalar SIType.T_NULL

/-- The child-less operator for `[0, 5]` initialised on `storage024`, after two
Consume calls: the cursor stands at 3. -/
def seekCursorAt3 : RT_NodeByIdSeek :=
  { childCount := 0, consume := SeekConsumeFn.NodeByIdSeekConsume, child_record := none,
    alias_ := "n", currentId := 3, minId := 0, maxId := 4, nodeRecIdx := 0 }

/-- The child-less operator built for the single identifier UINT64_MAX and
initialised on `storage0`. -/
def seekLastId : RT_NodeByIdSeek :=
  NodeByIdSeekInit storage0 (RT_NewNodeByIdSeekOp { record_map := [] } "n"
    { min := UINT64_MAX, max := UINT64_MAX, include_min := true, include_max := true }).1

/-! # Theorems -/

theorem Graph_GetNode_some {g : Graph} {id : Nat} {n : Node} (h : Graph_GetNode g id = some n) :
    n.id = id ∧ n.entity ≠ none ∧ id < g.nodes.length := by
  unfold Graph_GetNode at h
  split at h
  · rename_i e he
    have hlt : id < g.nodes.length := by
      rcases List.getElem?_eq_some_iff.mp he with ⟨hlt, _⟩
      exact hlt
    injection h with h
    subst h
    simp [hlt]
  · exact absurd h (by simp)

theorem Graph_GetNode_none_of_le {g : Graph} {id : Nat} (h : g.nodes.length ≤ id) :
    Graph_GetNode g id = none := by
  unfold Graph_GetNode
  rw [List.getElem?_eq_none h]

theorem seekLoop_eq (g : Graph) (n : Node) :
    ∀ (count fuel : Nat) (op : RT_NodeByIdSeek),
      op.currentId + count = op.maxId + 1 → op.maxId + 1 < UINT64_SIZE → count < fuel →
      seekLoop g fuel op n =
        some (match ((List.range' op.currentId count).filterMap (Graph_GetNode g)).head? with
          | some nd => (nd, { op with currentId := nd.id })
          | none => (n, { op with currentId := op.maxId + 1 })) := by
  intro count
  induction count with
  | zero =>
    intro fuel op h1 _ h3
    obtain ⟨f, rfl⟩ : ∃ f, fuel = f + 1 := ⟨fuel - 1, by omega⟩
    have hout : _outOfBounds op = true := by
      unfold _outOfBounds
      simp
      omega
    have hc : op.maxId + 1 = op.currentId := by omega
    simp [seekLoop, hout, hc]
  | succ count ih =>
    intro fuel op h1 h2 h3
    obtain ⟨f, rfl⟩ : ∃ f, fuel = f + 1 := ⟨fuel - 1, by omega⟩
    have hout : _outOfBounds op = false := by
      unfold _outOfBounds
      simp
      omega
    cases hget : Graph_GetNode g op.currentId with
    | some nd =>
      have hid := (Graph_GetNode_some hget).1
      simp [seekLoop, hout, hget, List.range'_succ, List.filterMap_cons, hid]
    | none =>
      have hmod : (op.currentId + 1) % UINT64_SIZE = op.currentId + 1 :=
        Nat.mod_eq_of_lt (by omega)
      have := ih f { op with currentId := op.currentId + 1 } (by simp; omega) (by simpa using h2)
        (by omega)
      simp [seekLoop, hout, hget, List.range'_succ, List.filterMap_cons, hmod, this]

/-- A seek that starts past `maxId` finds nothing and only moves the cursor on. -/
theorem SeekNextNode_outOfBounds (g : Graph) (op : RT_NodeByIdSeek) (h : op.maxId < op.currentId) :
    _SeekNextNode g op =
      some (GE_NEW_NODE, { op with currentId := (op.currentId + 1) % UINT64_SIZE }) := by
  have hout : _outOfBounds op = true := by
    unfold _outOfBounds
    simp [h]
  simp [_SeekNextNode, seekLoop, hout]

/-- A seek that starts within the bounds, the bound being below `UINT64_MAX`. -/
theorem SeekNextNode_eq (g : Graph) (op : RT_NodeByIdSeek)
    (hc : op.currentId ≤ op.maxId + 1) (hmax : op.maxId + 1 < UINT64_SIZE) :
    _SeekNextNode g op =
      some (match (liveNodesIn g op.currentId op.maxId).head? with
        | some nd => (nd, { op with currentId := nd.id + 1 })
        | none => (GE_NEW_NODE, { op with currentId := (op.maxId + 2) % UINT64_SIZE })) := by
  have h := seekLoop_eq g GE_NEW_NODE (op.maxId + 1 - op.currentId) (UINT64_SIZE + 1) op
    (by omega) hmax (by omega)
  unfold _SeekNextNode liveNodesIn
  rw [h]
  cases hh : ((List.range' op.currentId (op.maxId + 1 - op.currentId)).filterMap
      (Graph_GetNode g)).head? with
  | none => simp
  | some nd =>
    have hmem : nd ∈ (List.range' op.currentId (op.maxId + 1 - op.currentId)).filterMap
        (Graph_GetNode g) := List.mem_of_mem_head? hh
    rw [List.mem_filterMap] at hmem
    obtain ⟨i, hi, hget⟩ := hmem
    have hid := (Graph_GetNode_some hget).1
    rw [List.mem_range'_1] at hi
    have : (nd.id + 1) % UINT64_SIZE = nd.id + 1 := Nat.mod_eq_of_lt (by omega)
    simp [this]


theorem Record_AddNode_CreateRecord (plan : ExecutionPlan) (idx : Nat) (n : Node) :
    Record_AddNode (OpBase_CreateRecord plan) idx n =
      recordWithOnlyNode plan.record_map.length idx n := by
  unfold Record_AddNode OpBase_CreateRecord Record_New recordWithOnlyNode
  congr 1
  apply List.ext_getElem?
  intro j
  by_cases hj : j < plan.record_map.length
  · by_cases hji : idx = j
    · subst hji
      simp [hj, List.getElem?_set]
    · have hji2 : ¬ j = idx := fun h => hji h.symm
      simp [hj, List.getElem?_set, hji, hji2, List.getElem?_replicate]
  · have h1 : ((List.replicate plan.record_map.length Entry.REC_TYPE_UNKNOWN).set idx
        (Entry.REC_TYPE_NODE n))[j]? = none := by
      apply List.getElem?_eq_none
      simp
      omega
    rw [h1]
    symm
    apply List.getElem?_eq_none
    simp
    omega

theorem NodeByIdSeekConsume_eq (plan : ExecutionPlan) (g : Graph) (op : RT_NodeByIdSeek)
    (hc : op.currentId ≤ op.maxId + 1) (hmax : op.maxId + 1 < UINT64_SIZE) :
    NodeByIdSeekConsume plan g op =
      some (match (liveNodesIn g op.currentId op.maxId).head? with
        | some nd => (some (recordWithOnlyNode plan.record_map.length op.nodeRecIdx nd),
            { op with currentId := nd.id + 1 })
        | none => (none, { op with currentId := (op.maxId + 2) % UINT64_SIZE })) := by
  unfold NodeByIdSeekConsume
  rw [SeekNextNode_eq g op hc hmax]
  cases hh : (liveNodesIn g op.currentId op.maxId).head? with
  | none => simp [GE_NEW_NODE]
  | some nd =>
    have hmem : nd ∈ liveNodesIn g op.currentId op.maxId := List.mem_of_mem_head? hh
    unfold liveNodesIn at hmem
    rw [List.mem_filterMap] at hmem
    obtain ⟨i, _, hget⟩ := hmem
    have hent := (Graph_GetNode_some hget).2.1
    simp [hent, Record_AddNode_CreateRecord]

theorem liveNodesIn_cons_some (g : Graph) (lo hi : Nat) (nd : Node) (h : lo ≤ hi)
    (hget : Graph_GetNode g lo = some nd) :
    liveNodesIn g lo hi = nd :: liveNodesIn g (lo + 1) hi := by
  unfold liveNodesIn
  have : hi + 1 - lo = (hi + 1 - (lo + 1)) + 1 := by omega
  rw [this, List.range'_succ, List.filterMap_cons, hget]

theorem liveNodesIn_cons_none (g : Graph) (lo hi : Nat) (h : lo ≤ hi)
    (hget : Graph_GetNode g lo = none) :
    liveNodesIn g lo hi = liveNodesIn g (lo + 1) hi := by
  unfold liveNodesIn
  have : hi + 1 - lo = (hi + 1 - (lo + 1)) + 1 := by omega
  rw [this, List.range'_succ, List.filterMap_cons, hget]

theorem liveNodesIn_empty (g : Graph) (lo hi : Nat) (h : hi < lo) : liveNodesIn g lo hi = [] := by
  unfold liveNodesIn
  have : hi + 1 - lo = 0 := by omega
  rw [this]
  rfl

theorem NodeByIdSeekConsume_calls_eq (plan : ExecutionPlan) (g : Graph) :
    ∀ (count : Nat) (op : RT_NodeByIdSeek),
      op.currentId + count = op.maxId + 1 → op.maxId + 1 < UINT64_SIZE →
      NodeByIdSeekConsume_calls plan g ((liveNodesIn g op.currentId op.maxId).length + 1) op =
        some ((liveNodesIn g op.currentId op.maxId).map
            (fun nd => some (recordWithOnlyNode plan.record_map.length op.nodeRecIdx nd)) ++ [none],
          { op with currentId := (op.maxId + 2) % UINT64_SIZE }) := by
  intro count
  induction count with
  | zero =>
    intro op h1 h2
    have hL : liveNodesIn g op.currentId op.maxId = [] := liveNodesIn_empty g _ _ (by omega)
    have hcons := NodeByIdSeekConsume_eq plan g op (by omega) h2
    rw [hL] at hcons
    simp [hL, NodeByIdSeekConsume_calls, hcons]
  | succ count ih =>
    intro op h1 h2
    have hcons := NodeByIdSeekConsume_eq plan g op (by omega) h2
    cases hget : Graph_GetNode g op.currentId with
    | some nd =>
      have hid := (Graph_GetNode_some hget).1
      have hL := liveNodesIn_cons_some g op.currentId op.maxId nd (by omega) hget
      have hrec := ih { op with currentId := op.currentId + 1 } (by simp; omega) (by simpa using h2)
      simp only [] at hrec
      rw [hL] at hcons
      simp only [List.head?_cons, hid] at hcons
      rw [hL]
      simp only [List.length_cons, List.map_cons, List.cons_append]
      rw [NodeByIdSeekConsume_calls, hcons]
      simp only []
      rw [hrec]
    | none =>
      have hL := liveNodesIn_cons_none g op.currentId op.maxId (by omega) hget
      have hrec := ih { op with currentId := op.currentId + 1 } (by simp; omega) (by simpa using h2)
      have hcons1 := NodeByIdSeekConsume_eq plan g { op with currentId := op.currentId + 1 }
        (by simp; omega) (by simpa using h2)
      simp only [] at hrec hcons1
      rw [← hL] at hrec hcons1
      have heq : NodeByIdSeekConsume plan g op =
          NodeByIdSeekConsume plan g { op with currentId := op.currentId + 1 } := by
        rw [hcons, hcons1]
      rw [NodeByIdSeekConsume_calls, heq, ← NodeByIdSeekConsume_calls, hrec]


theorem OpBase_Modifies_lt (plan : ExecutionPlan) (name : String) :
    (OpBase_Modifies plan name).1 < (OpBase_Modifies plan name).2.record_map.length := by
  unfold OpBase_Modifies
  split
  · rename_i h
    exact List.indexOf_lt_length.mpr h
  · simp

theorem liveNodesIn_clamp (g : Graph) (lo hi : Nat) (hslots : 1 ≤ g.nodes.length) :
    liveNodesIn g lo (min (g.nodes.length - 1) hi) = liveNodesIn g lo hi := by
  by_cases h : hi ≤ g.nodes.length - 1
  · rw [Nat.min_eq_right h]
  · have hmin : min (g.nodes.length - 1) hi = g.nodes.length - 1 := Nat.min_eq_left (by omega)
    rw [hmin]
    unfold liveNodesIn
    obtain ⟨b, hb⟩ : ∃ b, hi + 1 - lo = b + (g.nodes.length - 1 + 1 - lo) :=
      ⟨hi + 1 - lo - (g.nodes.length - 1 + 1 - lo), by omega⟩
    rw [hb, ← List.range'_append_1, List.filterMap_append]
    have hnil : List.filterMap (Graph_GetNode g)
        (List.range' (lo + (g.nodes.length - 1 + 1 - lo)) b) = [] := by
      rw [List.filterMap_eq_nil_iff]
      intro i hi2
      rw [List.mem_range'_1] at hi2
      exact Graph_GetNode_none_of_le (by omega)
    rw [hnil, List.append_nil]

theorem mem_liveNodesIn (g : Graph) (lo hi : Nat) (nd : Node) :
    nd ∈ liveNodesIn g lo hi ↔ lo ≤ nd.id ∧ nd.id ≤ hi ∧ Graph_GetNode g nd.id = some nd := by
  unfold liveNodesIn
  rw [List.mem_filterMap]
  constructor
  · rintro ⟨i, hi2, hget⟩
    have hid := (Graph_GetNode_some hget).1
    rw [List.mem_range'_1] at hi2
    subst hid
    exact ⟨by omega, by omega, hget⟩
  · rintro ⟨h1, h2, hget⟩
    exact ⟨nd.id, by rw [List.mem_range'_1]; omega, hget⟩

theorem liveNodesIn_pairwise (g : Graph) (lo hi : Nat) :
    (liveNodesIn g lo hi).Pairwise (fun a b => a.id < b.id) := by
  unfold liveNodesIn
  apply List.Pairwise.filterMap (Graph_GetNode g) _ (List.pairwise_lt_range' lo (hi + 1 - lo))
  intro a a' haa b hb b' hb'
  have h1 := (Graph_GetNode_some (Option.mem_def.mp hb)).1
  have h2 := (Graph_GetNode_some (Option.mem_def.mp hb')).1
  omega

/-- C1: NodeByIdSeek without a child, built from an inclusive range `[lo, hi]` and
initialised against a storage with at least one identifier slot: the successive
results of NodeByIdSeekConsume from the initial cursor are the live nodes with an
identifier in `[lo, hi]`, each once and by strictly ascending identifier, each in
a fresh record holding only that node at slot nodeRecIdx, followed by NULL. -/
theorem NodeByIdSeekConsume_emits_live_nodes_in_range (plan0 plan : ExecutionPlan)
    (alias_ : String) (lo hi : Nat) (g : Graph)
    (hslots : 1 ≤ g.nodes.length) (hsize : g.nodes.length < UINT64_SIZE)
    (hplan : (RT_NewNodeByIdSeekOp plan0 alias_
      { min := lo, max := hi, include_min := true, include_max := true }).2.record_map.length
        ≤ plan.record_map.length) :
    let op := NodeByIdSeekInit g (RT_NewNodeByIdSeekOp plan0 alias_
      { min := lo, max := hi, include_min := true, include_max := true }).1
    let live := liveNodesIn g lo hi
    (NodeByIdSeekConsume_calls plan g (live.length + 1) op).map Prod.fst =
        some (live.map (fun nd =>
          some (recordWithOnlyNode plan.record_map.length op.nodeRecIdx nd)) ++ [none])
      ∧ op.nodeRecIdx < plan.record_map.length
      ∧ (∀ nd, nd ∈ live ↔ lo ≤ nd.id ∧ nd.id ≤ hi ∧ Graph_GetNode g nd.id = some nd)
      ∧ live.Pairwise (fun a b => a.id < b.id) := by
  intro op live
  have hcount : Graph_UncompactedNodeCount g = g.nodes.length := by
    unfold Graph_UncompactedNodeCount
    exact Nat.mod_eq_of_lt hsize
  have hsub : (g.nodes.length + UINT64_SIZE - 1) % UINT64_SIZE = g.nodes.length - 1 := by
    have : g.nodes.length + UINT64_SIZE - 1 = (g.nodes.length - 1) + UINT64_SIZE := by omega
    rw [this, Nat.add_mod_right]
    exact Nat.mod_eq_of_lt (by omega)
  have hcur : op.currentId = lo := by
    simp [op, NodeByIdSeekInit, RT_NewNodeByIdSeekOp]
  have hmaxId : op.maxId = min (g.nodes.length - 1) hi := by
    simp [op, NodeByIdSeekInit, RT_NewNodeByIdSeekOp, hcount, hsub]
  have hidx : op.nodeRecIdx = (OpBase_Modifies plan0 alias_).1 := by
    simp [op, NodeByIdSeekInit, RT_NewNodeByIdSeekOp]
  have hle : min (g.nodes.length - 1) hi ≤ g.nodes.length - 1 := Nat.min_le_left _ _
  have hlive : liveNodesIn g op.currentId op.maxId = live := by
    rw [hcur, hmaxId]
    exact liveNodesIn_clamp g lo hi hslots
  refine ⟨?_, ?_, mem_liveNodesIn g lo hi, liveNodesIn_pairwise g lo hi⟩
  · by_cases hin : op.currentId ≤ op.maxId + 1
    · have h := NodeByIdSeekConsume_calls_eq plan g (op.maxId + 1 - op.currentId) op
        (by omega) (by rw [hmaxId]; omega)
      rw [hlive] at h
      rw [h]
      rfl
    · have hnil : live = [] := by
        rw [← hlive]
        exact liveNodesIn_empty g _ _ (by omega)
      have hseek := SeekNextNode_outOfBounds g op (by omega)
      simp [hnil, NodeByIdSeekConsume_calls, NodeByIdSeekConsume, hseek, GE_NEW_NODE]
  · rw [hidx]
    have h1 := OpBase_Modifies_lt plan0 alias_
    have h2 : (RT_NewNodeByIdSeekOp plan0 alias_
      { min := lo, max := hi, include_min := true, include_max := true }).2 =
        (OpBase_Modifies plan0 alias_).2 := by
      simp [RT_NewNodeByIdSeekOp]
    rw [h2] at hplan
    omega

theorem seekLoop_fields (g : Graph) (n : Node) :
    ∀ (fuel : Nat) (op op1 : RT_NodeByIdSeek) (nd : Node),
      seekLoop g fuel op n = some (nd, op1) → op1 = { op with currentId := op1.currentId } := by
  intro fuel
  induction fuel with
  | zero => intro op op1 nd h; simp [seekLoop] at h
  | succ f ih =>
    intro op op1 nd h
    unfold seekLoop at h
    split at h
    · simp at h
      rw [← h.2]
    · split at h
      · simp at h
        rw [← h.2]
      · have := ih _ _ _ h
        rw [this]

theorem SeekNextNode_fields (g : Graph) (op op1 : RT_NodeByIdSeek) (nd : Node)
    (h : _SeekNextNode g op = some (nd, op1)) : op1 = { op with currentId := op1.currentId } := by
  unfold _SeekNextNode at h
  split at h
  · simp at h
  · rename_i n2 op2 hloop
    have := seekLoop_fields g _ _ _ _ _ hloop
    simp at h
    rw [← h.2, this]

theorem NodeByIdSeekConsume_fields (plan : ExecutionPlan) (g : Graph) (op op1 : RT_NodeByIdSeek)
    (r : Option Record) (h : NodeByIdSeekConsume plan g op = some (r, op1)) :
    op1 = { op with currentId := op1.currentId } := by
  unfold NodeByIdSeekConsume at h
  split at h
  · simp at h
  · rename_i n2 op2 hseek
    have := SeekNextNode_fields g _ _ _ hseek
    split at h <;> simp at h <;> rw [← h.2] <;> exact this

/-- C4: the clone built by NodeByIdSeekClone has the minId and maxId the original
has at that moment, the same alias, its cursor at minId and no held child record. -/
theorem NodeByIdSeekClone_preserves_bounds (plan : ExecutionPlan) (op : RT_NodeByIdSeek) :
    (NodeByIdSeekClone plan op).1.minId = op.minId
      ∧ (NodeByIdSeekClone plan op).1.maxId = op.maxId
      ∧ (NodeByIdSeekClone plan op).1.alias_ = op.alias_
      ∧ (NodeByIdSeekClone plan op).1.currentId = op.minId
      ∧ (NodeByIdSeekClone plan op).1.child_record = none := by
  simp [NodeByIdSeekClone, RT_NewNodeByIdSeekOp]

/-- What every state reached by a child-less operator keeps from its construction. -/
theorem NodeByIdSeek_after_keeps (plan : ExecutionPlan) (g : Graph) :
    ∀ (history : List SeekCall) (op op1 : RT_NodeByIdSeek),
      NodeByIdSeek_after plan g history op = some op1 →
      op1.childCount = op.childCount ∧ op1.child_record = op.child_record
        ∧ op1.alias_ = op.alias_ ∧ op1.minId = op.minId ∧ op1.nodeRecIdx = op.nodeRecIdx
        ∧ (op.childCount = 0 → op1.consume = op.consume)
        ∧ min ((Graph_UncompactedNodeCount g + UINT64_SIZE - 1) % UINT64_SIZE) op1.maxId =
          min ((Graph_UncompactedNodeCount g + UINT64_SIZE - 1) % UINT64_SIZE) op.maxId := by
  intro history
  induction history with
  | nil =>
    intro op op1 h
    simp [NodeByIdSeek_after] at h
    subst h
    simp
  | cons c rest ih =>
    intro op op1 h
    cases c with
    | init =>
      simp only [NodeByIdSeek_after] at h
      have h2 := ih _ _ h
      obtain ⟨a1, a2, a3, a4, a5, a6, a7⟩ := h2
      by_cases hc : op.childCount > 0
      · simp [NodeByIdSeekInit, hc] at a1 a2 a3 a4 a5 a6 a7
        refine ⟨a1, a2, a3, a4, a5, ?_, ?_⟩
        · intro h0; omega
        · rw [a7]
      · simp [NodeByIdSeekInit, hc] at a1 a2 a3 a4 a5 a6 a7
        refine ⟨a1, a2, a3, a4, a5, ?_, ?_⟩
        · intro h0; exact a6 h0
        · rw [a7]
    | consume =>
      simp only [NodeByIdSeek_after] at h
      split at h
      · simp at h
      · rename_i r op2 hcons
        have hf := NodeByIdSeekConsume_fields plan g _ _ _ hcons
        have h2 := ih _ _ h
        rw [hf] at h2
        simpa using h2

/-- C5: cloning a child-less NodeByIdSeek at any moment of its life (after any
calls of Init and Consume that have returned), then running Init and repeated
Consume on the clone against the same storage, gives the results of running
Init and repeated Consume on the original from its initial cursor: the same
nodes, call after call. -/
theorem NodeByIdSeekClone_run_eq_original_run (plan0 planC plan : ExecutionPlan)
    (alias_ : String) (range : UnsignedRange) (g : Graph) (history : List SeekCall)
    (op1 : RT_NodeByIdSeek)
    (hslot : (OpBase_Modifies planC alias_).1 = (OpBase_Modifies plan0 alias_).1)
    (hreach : NodeByIdSeek_after plan g history (RT_NewNodeByIdSeekOp plan0 alias_ range).1
      = some op1) :
    ∀ k, NodeByIdSeekConsume_calls plan g k (NodeByIdSeekInit g (NodeByIdSeekClone planC op1).1) =
      NodeByIdSeekConsume_calls plan g k
        (NodeByIdSeekInit g (RT_NewNodeByIdSeekOp plan0 alias_ range).1) := by
  intro k
  obtain ⟨a1, a2, a3, a4, a5, a6, a7⟩ := NodeByIdSeek_after_keeps plan g history _ _ hreach
  have heq : NodeByIdSeekInit g (NodeByIdSeekClone planC op1).1 =
      NodeByIdSeekInit g (RT_NewNodeByIdSeekOp plan0 alias_ range).1 := by
    simp [RT_NewNodeByIdSeekOp] at a1 a2 a3 a4 a5 a6 a7
    simp [NodeByIdSeekInit, NodeByIdSeekClone, RT_NewNodeByIdSeekOp, a3, a4, a7, hslot]
  rw [heq]

theorem NodeByIdSeekClone_run_eq_original_run_witness :
    NodeByIdSeek_after { record_map := ["n"] } storage024
        [SeekCall.init, SeekCall.consume, SeekCall.consume]
        (RT_NewNodeByIdSeekOp { record_map := [] } "n"
          { min := 0, max := 5, include_min := true, include_max := true }).1
      = some { childCount := 0, consume := SeekConsumeFn.NodeByIdSeekConsume,
               child_record := none, alias_ := "n", currentId := 3, minId := 0, maxId := 4,
               nodeRecIdx := 0 }
    ∧ ∀ k, NodeByIdSeekConsume_calls { record_map := ["n"] } storage024 k
        (NodeByIdSeekInit storage024 (NodeByIdSeekClone { record_map := ["n"] }
          { childCount := 0, consume := SeekConsumeFn.NodeByIdSeekConsume,
            child_record := none, alias_ := "n", currentId := 3, minId := 0, maxId := 4,
            nodeRecIdx := 0 }).1) =
      NodeByIdSeekConsume_calls { record_map := ["n"] } storage024 k
        (NodeByIdSeekInit storage024 (RT_NewNodeByIdSeekOp { record_map := [] } "n"
          { min := 0, max := 5, include_min := true, include_max := true }).1) :=
  ⟨by decide,
   NodeByIdSeekClone_run_eq_original_run { record_map := [] } { record_map := ["n"] }
     { record_map := ["n"] } "n" { min := 0, max := 5, include_min := true, include_max := true }
     storage024 [SeekCall.init, SeekCall.consume, SeekCall.consume] _ (by decide) (by decide)⟩

/-- Range normalisation is exact whenever neither exclusive bound sits at the
edge of the 64-bit identifier space. -/
theorem RT_NewNodeByIdSeekOp_range_exact (plan : ExecutionPlan) (alias_ : String)
    (range : UnsignedRange)
    (hmin : range.include_min = true ∨ range.min + 1 < UINT64_SIZE)
    (hmax : range.include_max = true ∨ (0 < range.max ∧ range.max < UINT64_SIZE)) :
    (∀ id, ((RT_NewNodeByIdSeekOp plan alias_ range).1.minId ≤ id
        ∧ id ≤ (RT_NewNodeByIdSeekOp plan alias_ range).1.maxId) ↔ range.contains id)
      ∧ (RT_NewNodeByIdSeekOp plan alias_ range).1.currentId =
          (RT_NewNodeByIdSeekOp plan alias_ range).1.minId := by
  refine ⟨?_, by simp [RT_NewNodeByIdSeekOp]⟩
  intro id
  have hM : UINT64_SIZE = 18446744073709551616 := by decide
  cases hi : range.include_min <;> cases ha : range.include_max
  · have h1 : range.min + 1 < UINT64_SIZE := by simpa [hi] using hmin
    have h2 : 0 < range.max ∧ range.max < UINT64_SIZE := by simpa [ha] using hmax
    have e1 : (range.min + 1) % UINT64_SIZE = range.min + 1 := Nat.mod_eq_of_lt h1
    have e2 : (range.max + UINT64_SIZE - 1) % UINT64_SIZE = range.max - 1 := by
      have : range.max + UINT64_SIZE - 1 = (range.max - 1) + UINT64_SIZE := by omega
      rw [this, Nat.add_mod_right]
      exact Nat.mod_eq_of_lt (by omega)
    simp [RT_NewNodeByIdSeekOp, UnsignedRange.contains, hi, ha, e1, e2]
    omega
  · have h1 : range.min + 1 < UINT64_SIZE := by simpa [hi] using hmin
    have e1 : (range.min + 1) % UINT64_SIZE = range.min + 1 := Nat.mod_eq_of_lt h1
    simp [RT_NewNodeByIdSeekOp, UnsignedRange.contains, hi, ha, e1]
    omega
  · have h2 : 0 < range.max ∧ range.max < UINT64_SIZE := by simpa [ha] using hmax
    have e2 : (range.max + UINT64_SIZE - 1) % UINT64_SIZE = range.max - 1 := by
      have : range.max + UINT64_SIZE - 1 = (range.max - 1) + UINT64_SIZE := by omega
      rw [this, Nat.add_mod_right]
      exact Nat.mod_eq_of_lt (by omega)
    simp [RT_NewNodeByIdSeekOp, UnsignedRange.contains, hi, ha, e2]
    omega
  · simp [RT_NewNodeByIdSeekOp, UnsignedRange.contains, hi, ha]

/-- C2: at the descriptor with an exclusive upper bound of 0, which denotes no
identifier at all, `max - 1` wraps around: the operator is built with
maxId = UINT64_MAX, so identifier 0 lies in `[minId, maxId]` although the
descriptor does not contain it. -/
theorem RT_NewNodeByIdSeekOp_exclusive_max_zero_wraps :
    (RT_NewNodeByIdSeekOp { record_map := [] } "n"
        { min := 0, max := 0, include_min := true, include_max := false }).1.minId = 0
      ∧ (RT_NewNodeByIdSeekOp { record_map := [] } "n"
        { min := 0, max := 0, include_min := true, include_max := false }).1.maxId = UINT64_MAX
      ∧ ¬ UnsignedRange.contains
        { min := 0, max := 0, include_min := true, include_max := false } 0
      ∧ ¬ (∀ id, ((RT_NewNodeByIdSeekOp { record_map := [] } "n"
            { min := 0, max := 0, include_min := true, include_max := false }).1.minId ≤ id
          ∧ id ≤ (RT_NewNodeByIdSeekOp { record_map := [] } "n"
            { min := 0, max := 0, include_min := true, include_max := false }).1.maxId) ↔
          UnsignedRange.contains
            { min := 0, max := 0, include_min := true, include_max := false } id) := by
  refine ⟨by decide, by decide, by decide, ?_⟩
  intro h
  exact absurd ((h 0).mp (by decide)) (by decide)

/-- Init over a storage with at least one identifier slot: every identifier
left in `[minId, maxId]` is a valid one.  Over any storage, Init never raises
maxId and leaves minId alone. -/
theorem NodeByIdSeekInit_clamps (g : Graph) (op : RT_NodeByIdSeek) :
    (NodeByIdSeekInit g op).maxId ≤ op.maxId
      ∧ (NodeByIdSeekInit g op).minId = op.minId
      ∧ (1 ≤ Graph_UncompactedNodeCount g →
          ∀ id, (NodeByIdSeekInit g op).minId ≤ id → id ≤ (NodeByIdSeekInit g op).maxId →
            id < Graph_UncompactedNodeCount g) := by
  have hfields : (NodeByIdSeekInit g op).maxId =
      min ((Graph_UncompactedNodeCount g + UINT64_SIZE - 1) % UINT64_SIZE) op.maxId
      ∧ (NodeByIdSeekInit g op).minId = op.minId := by
    by_cases hc : op.childCount > 0 <;> simp [NodeByIdSeekInit, hc]
  rw [hfields.1, hfields.2]
  refine ⟨Nat.min_le_right _ _, rfl, ?_⟩
  intro hn id _ hle
  have hlt : Graph_UncompactedNodeCount g < UINT64_SIZE := by
    unfold Graph_UncompactedNodeCount
    exact Nat.mod_lt _ (by decide)
  have hsub : (Graph_UncompactedNodeCount g + UINT64_SIZE - 1) % UINT64_SIZE =
      Graph_UncompactedNodeCount g - 1 := by
    have : Graph_UncompactedNodeCount g + UINT64_SIZE - 1 =
        (Graph_UncompactedNodeCount g - 1) + UINT64_SIZE := by omega
    rw [this, Nat.add_mod_right]
    exact Nat.mod_eq_of_lt (by omega)
  rw [hsub] at hle
  have := Nat.min_le_left (Graph_UncompactedNodeCount g - 1) op.maxId
  omega

/-- C3: over the empty storage (node count 0) the `size_t` subtraction
`node_count - 1` wraps to UINT64_MAX, so Init clamps nothing: an operator
built for `[0, 5]` keeps maxId = 5, and identifier 0 stays in `[minId, maxId]`
although no identifier is valid. -/
theorem NodeByIdSeekInit_empty_storage_no_clamp :
    Graph_UncompactedNodeCount storageEmpty = 0
      ∧ (NodeByIdSeekInit storageEmpty (RT_NewNodeByIdSeekOp { record_map := [] } "n"
          { min := 0, max := 5, include_min := true, include_max := true }).1).minId = 0
      ∧ (NodeByIdSeekInit storageEmpty (RT_NewNodeByIdSeekOp { record_map := [] } "n"
          { min := 0, max := 5, include_min := true, include_max := true }).1).maxId = 5
      ∧ ¬ (∀ id, (NodeByIdSeekInit storageEmpty (RT_NewNodeByIdSeekOp { record_map := [] } "n"
            { min := 0, max := 5, include_min := true, include_max := true }).1).minId ≤ id →
          id ≤ (NodeByIdSeekInit storageEmpty (RT_NewNodeByIdSeekOp { record_map := [] } "n"
            { min := 0, max := 5, include_min := true, include_max := true }).1).maxId →
          id < Graph_UncompactedNodeCount storageEmpty) := by
  refine ⟨by decide, by decide, by decide, ?_⟩
  intro h
  exact absurd (h 0 (by decide) (by decide)) (by decide)

/-- Once the cursor is past maxId, further calls return NULL for as long as the
cursor does not wrap around the 64-bit space. -/
theorem NodeByIdSeekConsume_calls_exhausted (plan : ExecutionPlan) (g : Graph) :
    ∀ (k : Nat) (op : RT_NodeByIdSeek), op.maxId < op.currentId →
      op.currentId < UINT64_SIZE → op.currentId + k ≤ UINT64_SIZE →
      NodeByIdSeekConsume_calls plan g k op =
        some (List.replicate k none, { op with currentId := (op.currentId + k) % UINT64_SIZE }) := by
  intro k
  induction k with
  | zero =>
    intro op _ h2 _
    have : op.currentId % UINT64_SIZE = op.currentId := Nat.mod_eq_of_lt h2
    simp [NodeByIdSeekConsume_calls, this]
  | succ k ih =>
    intro op h1 h2 h3
    have hseek := SeekNextNode_outOfBounds g op h1
    cases k with
    | zero =>
      simp [NodeByIdSeekConsume_calls, NodeByIdSeekConsume, hseek, GE_NEW_NODE]
    | succ j =>
      have hmod : (op.currentId + 1) % UINT64_SIZE = op.currentId + 1 :=
        Nat.mod_eq_of_lt (by omega)
      have hrec := ih { op with currentId := op.currentId + 1 } (by simp; omega) (by simp; omega)
        (by simp; omega)
      simp only [] at hrec
      have hadd : op.currentId + 1 + (j + 1) = op.currentId + (j + 1 + 1) := by omega
      rw [hadd] at hrec
      rw [NodeByIdSeekConsume_calls]
      simp only [NodeByIdSeekConsume, hseek, GE_NEW_NODE, hmod, if_true]
      rw [hrec]
      simp [List.replicate_succ]

/-- C8: end-of-stream is not permanent when the cursor wraps.  An operator built
for the single identifier UINT64_MAX and initialised on a storage whose only
slot, identifier 0, is live: the first Consume returns NULL and wraps the
cursor to 0, the second Consume returns node 0. -/
theorem NodeByIdSeekConsume_returns_node_after_end_of_stream :
    NodeByIdSeekConsume_calls { record_map := ["n"] } storage0 2
        (NodeByIdSeekInit storage0 (RT_NewNodeByIdSeekOp { record_map := [] } "n"
          { min := UINT64_MAX, max := UINT64_MAX, include_min := true, include_max := true }).1)
      = some ([none, some { entries := [Entry.REC_TYPE_NODE { entity := some 100, id := 0 }] }],
          { childCount := 0, consume := SeekConsumeFn.NodeByIdSeekConsume, child_record := none,
            alias_ := "n", currentId := 1, minId := UINT64_MAX, maxId := 0, nodeRecIdx := 0 }) := by
  decide

theorem seekLoop_never_left (g : Graph) (n : Node) (hg : ∀ id, Graph_GetNode g id = none) :
    ∀ (fuel : Nat) (op : RT_NodeByIdSeek), op.maxId = UINT64_MAX → op.currentId < UINT64_SIZE →
      seekLoop g fuel op n = none := by
  intro fuel
  induction fuel with
  | zero => intro op _ _; rfl
  | succ f ih =>
    intro op h1 h2
    have hM : UINT64_MAX = UINT64_SIZE - 1 := by decide
    have hout : _outOfBounds op = false := by
      unfold _outOfBounds
      simp
      omega
    have hrec := ih { op with currentId := (op.currentId + 1) % UINT64_SIZE } h1
      (Nat.mod_lt _ (by decide))
    simp [seekLoop, hout, hg, hrec]

theorem SeekNextNode_never_returns (g : Graph) (hg : ∀ id, Graph_GetNode g id = none)
    (op : RT_NodeByIdSeek) (h1 : op.maxId = UINT64_MAX) (h2 : op.currentId < UINT64_SIZE) :
    _SeekNextNode g op = none := by
  have h := seekLoop_never_left g GE_NEW_NODE hg (UINT64_SIZE + 1) op h1 h2
  simp only [_SeekNextNode, h]

theorem liveNodesIn_eq_nil_of_none (g : Graph) (lo hi : Nat)
    (hg : ∀ id, Graph_GetNode g id = none) : liveNodesIn g lo hi = [] := by
  unfold liveNodesIn
  rw [List.filterMap_eq_nil_iff]
  intro a _
  exact hg a

/-- A child-driven consume entered without a held record, on a child that
still has a row, never returns when the seek loop cannot be left. -/
theorem NodeByIdSeekConsumeFromChild_never_returns (g : Graph)
    (hg : ∀ id, Graph_GetNode g id = none) (op : RT_NodeByIdSeek) (r1 : Record)
    (rest deleted cloned : List Record) (pulls : Nat)
    (hcr : op.child_record = none) (hmax : op.maxId = UINT64_MAX)
    (hmin : op.minId < UINT64_SIZE) :
    NodeByIdSeekConsumeFromChild g
      { op := op, child := { rows := r1 :: rest, pulls := pulls }, deleted := deleted,
        cloned := cloned } = none := by
  have hseek := SeekNextNode_never_returns g hg
    (NodeByIdSeekReset { op with child_record := some r1 }).2 hmax hmin
  simp only [NodeByIdSeekConsumeFromChild, hcr, OpBase_Consume,
    NodeByIdSeekConsumeFromChild_seek, hseek]

/-- C6: over the empty storage Init leaves maxId = UINT64_MAX on the operator
built for the unbounded range, no identifier of the range is live, and the
first NodeByIdSeekConsumeFromChild call on a child with one row never
returns: the seek loop is not left however many times its condition is
tested, so no end-of-stream follows the zero records. -/
theorem NodeByIdSeekConsumeFromChild_empty_storage_never_returns (r1 : Record) :
    (NodeByIdSeekInit storageEmpty seekAllWithChild).maxId = UINT64_MAX
      ∧ (NodeByIdSeekInit storageEmpty seekAllWithChild).consume =
          SeekConsumeFn.NodeByIdSeekConsumeFromChild
      ∧ liveNodesIn storageEmpty (NodeByIdSeekInit storageEmpty seekAllWithChild).minId
          (NodeByIdSeekInit storageEmpty seekAllWithChild).maxId = []
      ∧ (∀ fuel, seekLoop storageEmpty fuel
          (NodeByIdSeekReset { NodeByIdSeekInit storageEmpty seekAllWithChild with
            child_record := some r1 }).2 GE_NEW_NODE = none)
      ∧ NodeByIdSeekConsumeFromChild storageEmpty
          { op := NodeByIdSeekInit storageEmpty seekAllWithChild
            child := { rows := [r1], pulls := 0 }
            deleted := []
            cloned := [] } = none :=
  have hg : ∀ id, Graph_GetNode storageEmpty id = none :=
    fun _ => Graph_GetNode_none_of_le (Nat.zero_le _)
  have hmax : (NodeByIdSeekInit storageEmpty seekAllWithChild).maxId = UINT64_MAX := by decide
  have hmin : (NodeByIdSeekInit storageEmpty seekAllWithChild).minId < UINT64_SIZE := by decide
  have hcr : (NodeByIdSeekInit storageEmpty seekAllWithChild).child_record = none := by decide
  ⟨hmax, by decide, liveNodesIn_eq_nil_of_none storageEmpty _ _ hg,
    fun fuel => seekLoop_never_left storageEmpty GE_NEW_NODE hg fuel
      (NodeByIdSeekReset { NodeByIdSeekInit storageEmpty seekAllWithChild with
        child_record := some r1 }).2 hmax hmin,
    NodeByIdSeekConsumeFromChild_never_returns storageEmpty hg
      (NodeByIdSeekInit storageEmpty seekAllWithChild) r1 [] [] [] 0 hcr hmax hmin⟩

theorem NodeByIdSeekConsume_emits_live_nodes_in_range_witness :
    (1 ≤ storage024.nodes.length ∧ storage024.nodes.length < UINT64_SIZE) ∧
    (NodeByIdSeekConsume_calls { record_map := ["n"] } storage024 4
      (NodeByIdSeekInit storage024 (RT_NewNodeByIdSeekOp { record_map := [] } "n"
        { min := 0, max := 5, include_min := true, include_max := true }).1)).map Prod.fst =
      some [some { entries := [Entry.REC_TYPE_NODE { entity := some 100, id := 0 }] },
            some { entries := [Entry.REC_TYPE_NODE { entity := some 102, id := 2 }] },
            some { entries := [Entry.REC_TYPE_NODE { entity := some 104, id := 4 }] },
            none] :=
  ⟨by decide,
   (NodeByIdSeekConsume_emits_live_nodes_in_range { record_map := [] } { record_map := ["n"] }
      "n" 0 5 storage024 (by decide) (by decide) (by decide)).1⟩

/-- A seek loop that is left without a node has met a cursor past maxId, so
maxId is below UINT64_MAX. -/
theorem seekLoop_nothing_bound (g : Graph) (n : Node) :
    ∀ (fuel : Nat) (op op1 : RT_NodeByIdSeek) (nd : Node),
      seekLoop g fuel op n = some (nd, op1) → nd.entity = none →
      op.currentId < UINT64_SIZE → op.maxId + 1 < UINT64_SIZE := by
  intro fuel
  induction fuel with
  | zero => intro op op1 nd h; simp [seekLoop] at h
  | succ f ih =>
    intro op op1 nd h hnd hc
    unfold seekLoop at h
    by_cases hout : _outOfBounds op = true
    · have : op.maxId < op.currentId := by
        unfold _outOfBounds at hout
        simpa using hout
      omega
    · simp only [hout] at h
      cases hget : Graph_GetNode g op.currentId with
      | some found =>
        simp [hget] at h
        have := (Graph_GetNode_some hget).2.1
        rw [h.1] at this
        exact absurd hnd this
      | none =>
        simp only [hget] at h
        have := ih _ _ _ h hnd (Nat.mod_lt _ (by decide))
        simpa using this

theorem SeekNextNode_nothing_bound (g : Graph) (op op1 : RT_NodeByIdSeek) (nd : Node)
    (h : _SeekNextNode g op = some (nd, op1)) (hnd : nd.entity = none)
    (hc : op.currentId < UINT64_SIZE) : op.maxId + 1 < UINT64_SIZE := by
  unfold _SeekNextNode at h
  split at h
  · simp at h
  · rename_i n2 op2 hloop
    simp at h
    rw [h.1] at hloop
    exact seekLoop_nothing_bound g GE_NEW_NODE _ _ _ _ hloop hnd hc

/-- A seek from a cursor below 2 ^ 64 returns whenever maxId is below UINT64_MAX. -/
theorem SeekNextNode_returns (g : Graph) (op : RT_NodeByIdSeek)
    (hmax : op.maxId + 1 < UINT64_SIZE) : ∃ nd op1, _SeekNextNode g op = some (nd, op1) := by
  by_cases hc : op.currentId ≤ op.maxId + 1
  · exact ⟨_, _, SeekNextNode_eq g op hc hmax⟩
  · exact ⟨_, _, SeekNextNode_outOfBounds g op (by omega)⟩


theorem SeekNextNode_of_live_nil (g : Graph) (op : RT_NodeByIdSeek)
    (hc : op.currentId ≤ op.maxId + 1) (hmax : op.maxId + 1 < UINT64_SIZE)
    (hlive : liveNodesIn g op.currentId op.maxId = []) :
    _SeekNextNode g op =
      some (GE_NEW_NODE, { op with currentId := (op.maxId + 2) % UINT64_SIZE }) := by
  rw [SeekNextNode_eq g op hc hmax, hlive]
  rfl

theorem SeekNextNode_of_live_cons (g : Graph) (op : RT_NodeByIdSeek) (nd : Node)
    (rest : List Node)
    (hc : op.currentId ≤ op.maxId + 1) (hmax : op.maxId + 1 < UINT64_SIZE)
    (hlive : liveNodesIn g op.currentId op.maxId = nd :: rest) :
    _SeekNextNode g op = some (nd, { op with currentId := nd.id + 1 }) := by
  rw [SeekNextNode_eq g op hc hmax, hlive]
  rfl

theorem liveNodesIn_nil_of_le (g : Graph) (lo lo2 hi : Nat) (h : lo ≤ lo2)
    (hnil : liveNodesIn g lo hi = []) : liveNodesIn g lo2 hi = [] := by
  rw [List.eq_nil_iff_forall_not_mem] at hnil ⊢
  intro nd hmem
  rw [mem_liveNodesIn] at hmem
  exact hnil nd ((mem_liveNodesIn g lo hi nd).mpr ⟨by omega, hmem.2.1, hmem.2.2⟩)

/-- The second half of the child-driven consume when the first seek finds nothing. -/
theorem NodeByIdSeekConsumeFromChild_seek_exhausted (g : Graph) (s : SeekState) (held : Record)
    (nd : Node) (op1 : RT_NodeByIdSeek)
    (hc : s.op.currentId < UINT64_SIZE)
    (hseek : _SeekNextNode g s.op = some (nd, op1)) (hnd : nd.entity = none) :
    (s.child.rows = [] →
      NodeByIdSeekConsumeFromChild_seek g s held =
        some (none, { op := { op1 with child_record := none },
                      child := { rows := [], pulls := s.child.pulls + 1 },
                      deleted := s.deleted ++ [held],
                      cloned := s.cloned })) ∧
    (∀ fresh rest, s.child.rows = fresh :: rest →
      ∃ n2 op3,
        _SeekNextNode g (NodeByIdSeekReset { op1 with child_record := some fresh }).2 =
            some (n2, op3)
        ∧ op3.child_record = some fresh
        ∧ NodeByIdSeekConsumeFromChild_seek g s held =
            some (if n2.entity = none then none
                  else some (Record_AddNode (Record_Clone fresh) op3.nodeRecIdx n2),
              { op := op3, child := { rows := rest, pulls := s.child.pulls + 1 },
                deleted := s.deleted ++ [held],
                cloned := if n2.entity = none then s.cloned else s.cloned ++ [fresh] })) := by
  have hbound := SeekNextNode_nothing_bound g _ _ _ hseek hnd hc
  have hf := SeekNextNode_fields g _ _ _ hseek
  constructor
  · intro hrows
    simp only [NodeByIdSeekConsumeFromChild_seek, hseek, hnd, OpBase_Consume, hrows, if_true]
  · intro fresh rest hrows
    have hmax2 : (NodeByIdSeekReset { op1 with child_record := some fresh }).2.maxId + 1
        < UINT64_SIZE := by
      rw [hf]
      simpa [NodeByIdSeekReset] using hbound
    obtain ⟨n2, op3, h2⟩ := SeekNextNode_returns g _ hmax2
    have hf2 := SeekNextNode_fields g _ _ _ h2
    refine ⟨n2, op3, h2, ?_, ?_⟩
    · rw [hf2]
      simp [NodeByIdSeekReset]
    · simp only [NodeByIdSeekConsumeFromChild_seek, hseek, hnd, OpBase_Consume, hrows, if_true,
        h2]
      by_cases hn2 : n2.entity = none <;> simp [hn2, RT_OpBase_CloneRecord]


/-- C7: single retry per call.  Whenever the first seek of a call finds the
range exhausted under the held child row (held on entry, or pulled at the
start of the call), NodeByIdSeekConsumeFromChild frees that row, pulls exactly
one further row, and, when there is one, resets the cursor to minId and seeks
once more; a second seek that finds nothing ends the call with NULL, the fresh
row held and no further pull.  In particular, over a child with two rows, a
range with one live node at the first call and none at the second gives one
combined record, then NULL with the second row held after two pulls in all. -/
theorem NodeByIdSeekConsumeFromChild_single_retry :
    (∀ (g : Graph) (s : SeekState) (held : Record),
      s.op.child_record = some held →
      NodeByIdSeekConsumeFromChild g s = NodeByIdSeekConsumeFromChild_seek g s held)
    ∧ (∀ (g : Graph) (s : SeekState) (held : Record) (rows : List Record),
      s.op.child_record = none → s.child.rows = held :: rows →
      NodeByIdSeekConsumeFromChild g s = NodeByIdSeekConsumeFromChild_seek g
        { s with op := (NodeByIdSeekReset { s.op with child_record := some held }).2
                 child := { rows := rows, pulls := s.child.pulls + 1 } } held)
    ∧ (∀ (g : Graph) (s : SeekState) (held : Record) (nd : Node) (op1 : RT_NodeByIdSeek),
      s.op.currentId < UINT64_SIZE →
      _SeekNextNode g s.op = some (nd, op1) → nd.entity = none →
      (s.child.rows = [] →
        NodeByIdSeekConsumeFromChild_seek g s held =
          some (none, { op := { op1 with child_record := none },
                        child := { rows := [], pulls := s.child.pulls + 1 },
                        deleted := s.deleted ++ [held],
                        cloned := s.cloned })) ∧
      (∀ fresh rest, s.child.rows = fresh :: rest →
        ∃ n2 op3,
          _SeekNextNode g (NodeByIdSeekReset { op1 with child_record := some fresh }).2 =
              some (n2, op3)
          ∧ op3.child_record = some fresh
          ∧ NodeByIdSeekConsumeFromChild_seek g s held =
              some (if n2.entity = none then none
                    else some (Record_AddNode (Record_Clone fresh) op3.nodeRecIdx n2),
                { op := op3, child := { rows := rest, pulls := s.child.pulls + 1 },
                  deleted := s.deleted ++ [held],
                  cloned := if n2.entity = none then s.cloned else s.cloned ++ [fresh] })))
    ∧ (∀ (g1 g2 : Graph) (s : SeekState) (r1 r2 : Record) (nd : Node),
      s.op.maxId + 1 < UINT64_SIZE → s.op.child_record = none → s.child.rows = [r1, r2] →
      liveNodesIn g1 s.op.minId s.op.maxId = [nd] →
      liveNodesIn g2 s.op.minId s.op.maxId = [] →
      ∃ s1 s2,
        NodeByIdSeekConsumeFromChild g1 s =
            some (some (Record_AddNode (Record_Clone r1) s.op.nodeRecIdx nd), s1)
        ∧ NodeByIdSeekConsumeFromChild g2 s1 = some (none, s2)
        ∧ s2.op.child_record = some r2
        ∧ s2.child = { rows := [], pulls := s.child.pulls + 2 }
        ∧ s2.deleted = s.deleted ++ [r1]) := by
  refine ⟨?_, ?_, ?_, ?_⟩
  · intro g s held h
    simp only [NodeByIdSeekConsumeFromChild, h]
  · intro g s held rows h hrows
    simp only [NodeByIdSeekConsumeFromChild, h, OpBase_Consume, hrows]
  · intro g s held nd op1 hc hseek hnd
    exact NodeByIdSeekConsumeFromChild_seek_exhausted g s held nd op1 hc hseek hnd
  · intro g1 g2 s r1 r2 nd hmax hcr hrows hl1 hl2
    have hmem : nd ∈ liveNodesIn g1 s.op.minId s.op.maxId := by rw [hl1]; simp
    rw [mem_liveNodesIn] at hmem
    obtain ⟨hlo, hhi, hget⟩ := hmem
    have hent := (Graph_GetNode_some hget).2.1
    -- first call: pull r1, reset, find nd
    have hseek1 := SeekNextNode_of_live_cons g1
      (NodeByIdSeekReset { s.op with child_record := some r1 }).2 nd []
      (by simp [NodeByIdSeekReset]; omega) (by simpa [NodeByIdSeekReset] using hmax)
      (by simpa [NodeByIdSeekReset] using hl1)
    -- second call: nothing left after nd, nothing from minId either
    have hseek2 := SeekNextNode_of_live_nil g2
      { (NodeByIdSeekReset { s.op with child_record := some r1 }).2 with currentId := nd.id + 1 }
      (by simp [NodeByIdSeekReset]; omega) (by simpa [NodeByIdSeekReset] using hmax)
      (by
        simp only [NodeByIdSeekReset]
        exact liveNodesIn_nil_of_le g2 s.op.minId (nd.id + 1) s.op.maxId (by omega) hl2)
    have hseek3 := SeekNextNode_of_live_nil g2
      (NodeByIdSeekReset
        { ({ (NodeByIdSeekReset { s.op with child_record := some r1 }).2 with
            currentId := (s.op.maxId + 2) % UINT64_SIZE }) with child_record := some r2 }).2
      (by simp [NodeByIdSeekReset]; omega) (by simpa [NodeByIdSeekReset] using hmax)
      (by simpa [NodeByIdSeekReset] using hl2)
    simp only [NodeByIdSeekReset] at hseek1 hseek2 hseek3
    refine ⟨{ op := { s.op with child_record := some r1, currentId := nd.id + 1 }
              child := { rows := [r2], pulls := s.child.pulls + 1 }
              deleted := s.deleted
              cloned := s.cloned ++ [r1] },
            { op := { s.op with child_record := some r2
                                currentId := (s.op.maxId + 2) % UINT64_SIZE }
              child := { rows := [], pulls := s.child.pulls + 2 }
              deleted := s.deleted ++ [r1]
              cloned := s.cloned ++ [r1] }, ?_, ?_, rfl, rfl, rfl⟩
    · simp only [NodeByIdSeekConsumeFromChild, hcr, OpBase_Consume, hrows,
        NodeByIdSeekConsumeFromChild_seek, NodeByIdSeekReset, hseek1, hent, if_false,
        RT_OpBase_CloneRecord]
    · simp only [NodeByIdSeekConsumeFromChild, NodeByIdSeekConsumeFromChild_seek,
        NodeByIdSeekReset, OpBase_Consume, hseek2, hseek3, GE_NEW_NODE, if_true]

theorem NodeByIdSeekConsumeFromChild_single_retry_witness :
    (seekStateTwoRows.op.maxId + 1 < UINT64_SIZE
      ∧ seekStateTwoRows.op.child_record = none
      ∧ seekStateTwoRows.child.rows =
          [Record_New 1, Record_AddNode (Record_New 1) 0 { entity := some 7, id := 9 }]
      ∧ liveNodesIn storage0 seekStateTwoRows.op.minId seekStateTwoRows.op.maxId =
          [{ entity := some 100, id := 0 }]
      ∧ liveNodesIn storageDeleted0 seekStateTwoRows.op.minId seekStateTwoRows.op.maxId = [])
    ∧ ∃ s1 s2,
        NodeByIdSeekConsumeFromChild storage0 seekStateTwoRows =
            some (some (Record_AddNode (Record_Clone (Record_New 1))
              seekStateTwoRows.op.nodeRecIdx { entity := some 100, id := 0 }), s1)
        ∧ NodeByIdSeekConsumeFromChild storageDeleted0 s1 = some (none, s2)
        ∧ s2.op.child_record =
            some (Record_AddNode (Record_New 1) 0 { entity := some 7, id := 9 })
        ∧ s2.child = { rows := [], pulls := seekStateTwoRows.child.pulls + 2 }
        ∧ s2.deleted = seekStateTwoRows.deleted ++ [Record_New 1] :=
  ⟨by decide,
   NodeByIdSeekConsumeFromChild_single_retry.2.2.2 storage0 storageDeleted0 seekStateTwoRows
     (Record_New 1) (Record_AddNode (Record_New 1) 0 { entity := some 7, id := 9 })
     { entity := some 100, id := 0 } (by decide) (by decide) (by decide) (by decide) (by decide)⟩

theorem SIType_flag_graphentity (t : SIType) :
    (t.flag &&& SI_GRAPHENTITY = 0) ↔ (t ≠ SIType.T_NODE ∧ t ≠ SIType.T_EDGE) := by
  cases t <;> decide

theorem SIValue_Persist_type (v : SIValue) : (SIValue_Persist v).type = v.type := by
  unfold SIValue_Persist
  split <;> rfl

theorem SIValue_Persist_node (v : SIValue) : (SIValue_Persist v).node = v.node := by
  unfold SIValue_Persist
  split <;> rfl

theorem SIValue_Persist_edge (v : SIValue) : (SIValue_Persist v).edge = v.edge := by
  unfold SIValue_Persist
  split <;> rfl

/-- What one round of the projection loop adds to the projection. -/
theorem Record_Add_projected (projection : Record) (rec_idx : Nat) (v : SIValue) :
    Record_Add projection rec_idx
        (if v.type.flag &&& SI_GRAPHENTITY = 0 then SIValue_Persist v else v) =
      { entries := projection.entries.set rec_idx (projectedEntry v) } := by
  by_cases h : v.type.flag &&& SI_GRAPHENTITY = 0
  · have hne := (SIType_flag_graphentity v.type).mp h
    simp only [h, if_true]
    unfold Record_Add projectedEntry
    rw [SIValue_Persist_type]
    cases ht : v.type <;> simp_all [Record_AddScalar]
  · simp only [h, if_false]
    have hor : v.type = SIType.T_NODE ∨ v.type = SIType.T_EDGE := by
      by_contra hcon
      push_neg at hcon
      exact h ((SIType_flag_graphentity v.type).mpr hcon)
    unfold Record_Add projectedEntry
    rcases hor with ht | ht <;> simp [ht, Record_AddNode, Record_AddEdge]

theorem lastExpAt_cons (e : AR_ExpNode) (es : List AR_ExpNode) (o : Nat) (os : List Nat)
    (j : Nat) :
    lastExpAt (e :: es) (o :: os) j =
      match lastExpAt es os j with
      | some x => some x
      | none => if o = j then some e else none := by
  unfold lastExpAt
  simp only [List.zip_cons_cons, List.reverse_cons, List.find?_append]
  cases h : List.find? (fun p => p.2 == j) (es.zip os).reverse with
  | some x => simp
  | none =>
    by_cases hoj : o = j
    · simp [List.find?, hoj]
    · have hb : (o == j) = false := by simpa using hoj
      simp [List.find?, hb, hoj]

theorem lastExpAt_nil_left (os : List Nat) (j : Nat) : lastExpAt [] os j = none := by
  simp [lastExpAt]

theorem lastExpAt_nil_right (es : List AR_ExpNode) (j : Nat) : lastExpAt es [] j = none := by
  simp [lastExpAt]

/-- The projection loop, slot by slot. -/
theorem ProjectConsume_loop_entries (eval : AR_ExpNode → Record → SIValue) (r : Record) :
    ∀ (exps : List AR_ExpNode) (record_offsets : List Nat) (projection : Record)
      (events : List ValueEvent) (j : Nat),
      (ProjectConsume_loop eval r exps record_offsets projection events).1.entries[j]? =
        match lastExpAt exps record_offsets j with
        | some exp =>
          if j < projection.entries.length then some (projectedEntry (eval exp r)) else none
        | none => projection.entries[j]? := by
  intro exps
  induction exps with
  | nil =>
    intro record_offsets projection events j
    simp [ProjectConsume_loop, lastExpAt_nil_left]
  | cons e es ih =>
    intro record_offsets projection events j
    cases record_offsets with
    | nil => simp [ProjectConsume_loop, lastExpAt_nil_right]
    | cons o os =>
      simp only [ProjectConsume_loop]
      rw [Record_Add_projected, ih, lastExpAt_cons]
      cases h : lastExpAt es os j with
      | some x => simp
      | none =>
        by_cases hoj : o = j
        · subst hoj
          by_cases hlt : o < projection.entries.length
          · simp [hlt, List.getElem?_set]
          · simp [hlt, List.getElem?_set]
        · simp [hoj, List.getElem?_set]

/-- The projection loop started on a fresh record builds the projection of `r`. -/
theorem ProjectConsume_loop_eq_projectionOf (eval : AR_ExpNode → Record → SIValue)
    (plan : ExecutionPlan) (r : Record) (exps : List AR_ExpNode) (record_offsets : List Nat)
    (events : List ValueEvent) :
    (ProjectConsume_loop eval r exps record_offsets (OpBase_CreateRecord plan) events).1 =
      projectionOf eval plan.record_map.length exps record_offsets r := by
  have hext : ∀ (a b : Record), a.entries = b.entries → a = b := by
    intro a b h
    cases a; cases b; simp_all
  apply hext
  apply List.ext_getElem?
  intro j
  rw [ProjectConsume_loop_entries]
  unfold projectionOf OpBase_CreateRecord Record_New
  dsimp only
  by_cases hj : j < plan.record_map.length
  · cases h : lastExpAt exps record_offsets j with
    | some x => simp [hj, h]
    | none => simp [hj, h, List.getElem?_replicate]
  · have hnone : ∀ (l : List Entry), l.length = plan.record_map.length → l[j]? = none := by
      intro l hl
      apply List.getElem?_eq_none
      omega
    rw [hnone _ (by simp), hnone _ (by simp)]
    cases h : lastExpAt exps record_offsets j with
    | some x => simp [hj]
    | none => rfl

/-- One registration: the mapping grows at its end only, the name is in it
afterwards, and the offset returned is the place of the name. -/
theorem OpBase_Modifies_spec (plan : ExecutionPlan) (name : String) :
    (∃ ext, (OpBase_Modifies plan name).2.record_map = plan.record_map ++ ext)
      ∧ name ∈ (OpBase_Modifies plan name).2.record_map
      ∧ (OpBase_Modifies plan name).1 = (OpBase_Modifies plan name).2.record_map.indexOf name := by
  unfold OpBase_Modifies
  by_cases h : name ∈ plan.record_map
  · rw [if_pos h]
    exact ⟨⟨[], by simp⟩, h, rfl⟩
  · rw [if_neg h]
    refine ⟨⟨[name], rfl⟩, by simp, ?_⟩
    show plan.record_map.length = List.indexOf name (plan.record_map ++ [name])
    rw [List.indexOf_append_of_not_mem h]
    simp

/-- The registration loop: offsets are appended in expression order, each the
place of its expression name in the final mapping. -/
theorem NewProjectOp_offsets_spec :
    ∀ (exps : List AR_ExpNode) (plan : ExecutionPlan) (acc : List Nat),
      (∃ ext, (NewProjectOp_offsets exps plan acc).2.record_map = plan.record_map ++ ext)
        ∧ (NewProjectOp_offsets exps plan acc).1 =
            acc ++ exps.map (fun e =>
              (NewProjectOp_offsets exps plan acc).2.record_map.indexOf e.resolved_name)
        ∧ ∀ e ∈ exps, e.resolved_name ∈ (NewProjectOp_offsets exps plan acc).2.record_map := by
  intro exps
  induction exps with
  | nil =>
    intro plan acc
    simp [NewProjectOp_offsets]
  | cons e rest ih =>
    intro plan acc
    obtain ⟨⟨ext0, hext0⟩, hmem0, hidx0⟩ := OpBase_Modifies_spec plan e.resolved_name
    obtain ⟨⟨ext1, hext1⟩, hoff, hmem1⟩ :=
      ih (OpBase_Modifies plan e.resolved_name).2 (acc ++ [(OpBase_Modifies plan e.resolved_name).1])
    simp only [NewProjectOp_offsets]
    refine ⟨⟨ext0 ++ ext1, ?_⟩, ?_, ?_⟩
    · rw [hext1, hext0, List.append_assoc]
    · rw [hoff]
      have hplace : (OpBase_Modifies plan e.resolved_name).1 =
          (NewProjectOp_offsets rest (OpBase_Modifies plan e.resolved_name).2
            (acc ++ [(OpBase_Modifies plan e.resolved_name).1])).2.record_map.indexOf
              e.resolved_name := by
        rw [hext1, List.indexOf_append_of_mem hmem0]
        exact hidx0
      simp only [List.map_cons, List.append_assoc, List.singleton_append]
      rw [← hplace]
    · intro x hx
      rcases List.mem_cons.mp hx with hxe | hxr
      · rw [hxe, hext1]
        exact List.mem_append_left _ hmem0
      · exact hmem1 x hxr

/-- The offsets of a constructed projection. -/
theorem NewProjectOp_record_offsets (plan : ExecutionPlan) (exps : List AR_ExpNode) :
    (NewProjectOp plan exps).1.record_offsets =
        exps.map (fun e => (NewProjectOp plan exps).2.record_map.indexOf e.resolved_name)
      ∧ (∀ e ∈ exps,
          (NewProjectOp plan exps).2.record_map.indexOf e.resolved_name <
            (NewProjectOp plan exps).2.record_map.length)
      ∧ ∃ ext, (NewProjectOp plan exps).2.record_map = plan.record_map ++ ext := by
  obtain ⟨hext, hoff, hmem⟩ := NewProjectOp_offsets_spec exps plan []
  refine ⟨?_, ?_, hext⟩
  · simpa [NewProjectOp] using hoff
  · intro e he
    exact List.indexOf_lt_length.mpr (hmem e he)

theorem lastExpAt_none_of_not_mem (j : Nat) :
    ∀ (exps : List AR_ExpNode) (record_offsets : List Nat),
      j ∉ record_offsets → lastExpAt exps record_offsets j = none := by
  intro exps
  induction exps with
  | nil => intro record_offsets _; exact lastExpAt_nil_left _ _
  | cons e es ih =>
    intro record_offsets hj
    cases record_offsets with
    | nil => exact lastExpAt_nil_right _ _
    | cons o os =>
      rw [lastExpAt_cons, ih os (fun h => hj (List.mem_cons_of_mem _ h))]
      have hne : o ≠ j := fun h => hj (by rw [h]; exact List.mem_cons_self _ _)
      simp [hne]

theorem lastExpAt_of_last (o : Nat) :
    ∀ (exps : List AR_ExpNode) (record_offsets : List Nat) (i : Nat) (e : AR_ExpNode),
      exps[i]? = some e → record_offsets[i]? = some o →
      (∀ i2, i < i2 → record_offsets[i2]? ≠ some o) →
      lastExpAt exps record_offsets o = some e := by
  intro exps
  induction exps with
  | nil => intro record_offsets i e he; simp at he
  | cons x es ih =>
    intro record_offsets i e he ho hlast
    cases record_offsets with
    | nil => simp at ho
    | cons o0 os =>
      rw [lastExpAt_cons]
      cases i with
      | zero =>
        simp at he ho
        have hnot : o ∉ os := by
          intro hmem
          obtain ⟨n, hn, hget⟩ := List.getElem_of_mem hmem
          apply hlast (n + 1) (by omega)
          simp [List.getElem?_eq_getElem hn, hget]
        rw [lastExpAt_none_of_not_mem o es os hnot]
        simp [ho, he]
      | succ i1 =>
        simp at he ho
        have := ih os i1 e he ho (fun i2 hi2 => by
          have := hlast (i2 + 1) (by omega)
          simpa using this)
        rw [this]

theorem projectionOf_length (eval : AR_ExpNode → Record → SIValue) (len : Nat)
    (exps : List AR_ExpNode) (record_offsets : List Nat) (r : Record) :
    (projectionOf eval len exps record_offsets r).entries.length = len := by
  simp [projectionOf]

theorem projectionOf_entry (eval : AR_ExpNode → Record → SIValue) (len : Nat)
    (exps : List AR_ExpNode) (record_offsets : List Nat) (r : Record) (j : Nat) (hj : j < len) :
    (projectionOf eval len exps record_offsets r).entries[j]? =
      some (match lastExpAt exps record_offsets j with
        | some exp => projectedEntry (eval exp r)
        | none => Entry.REC_TYPE_UNKNOWN) := by
  unfold projectionOf
  simp only [List.getElem?_map, List.getElem?_range hj, Option.map_some']

/-- The projecting half of consume: the projection of `r` comes out, the input
record is deleted and both references are cleared. -/
theorem ProjectConsume_project_eq (eval : AR_ExpNode → Record → SIValue) (plan : ExecutionPlan)
    (s : ProjectState) (r : Record) (hcount : s.op.exp_count = s.op.exps.length) :
    ProjectConsume_project eval plan s r =
      (some (projectionOf eval plan.record_map.length s.op.exps s.op.record_offsets r),
        { s with op := { s.op with r := none, projection := none }
                 deleted := s.deleted ++ [r]
                 events := (ProjectConsume_loop eval r s.op.exps s.op.record_offsets
                   (OpBase_CreateRecord plan) s.events).2 }) := by
  unfold ProjectConsume_project
  simp only [hcount, List.take_length]
  rw [ProjectConsume_loop_eq_projectionOf]

theorem ProjectConsume_flagged (eval : AR_ExpNode → Record → SIValue) (plan : ExecutionPlan)
    (s : ProjectState) (hchild : s.op.childCount = 0) (hflag : s.op.singleResponse = true) :
    ProjectConsume eval plan s = (none, s) := by
  simp [ProjectConsume, hchild, hflag]

theorem ProjectConsume_calls_flagged (eval : AR_ExpNode → Record → SIValue)
    (plan : ExecutionPlan) (s : ProjectState) (hchild : s.op.childCount = 0)
    (hflag : s.op.singleResponse = true) :
    ∀ k, ProjectConsume_calls eval plan k s = (List.replicate k none, s) := by
  intro k
  induction k with
  | zero => rfl
  | succ k ih =>
    simp only [ProjectConsume_calls, ProjectConsume_flagged eval plan s hchild hflag, ih,
      List.replicate_succ]

/-- A child-less projection whose flag is clear: one record, then NULL on every
later call; the flag is set and nothing else of the operator changes. -/
theorem ProjectConsume_calls_unflagged (eval : AR_ExpNode → Record → SIValue)
    (plan : ExecutionPlan) (s : ProjectState) (hchild : s.op.childCount = 0)
    (hflag : s.op.singleResponse = false) (hcount : s.op.exp_count = s.op.exps.length) (k : Nat) :
    (ProjectConsume_calls eval plan (k + 1) s).1 =
        some (projectionOf eval plan.record_map.length s.op.exps s.op.record_offsets
          (OpBase_CreateRecord plan)) :: List.replicate k none
      ∧ (ProjectConsume_calls eval plan (k + 1) s).2.op =
          { s.op with singleResponse := true, r := none, projection := none }
      ∧ (ProjectConsume_calls eval plan (k + 1) s).2.child = s.child := by
  have hfirst : ProjectConsume eval plan s =
      ProjectConsume_project eval plan
        { s with op := { s.op with singleResponse := true, r := some (OpBase_CreateRecord plan) } }
        (OpBase_CreateRecord plan) := by
    simp [ProjectConsume, hchild, hflag]
  have hsecond := ProjectConsume_project_eq eval plan
    { s with op := { s.op with singleResponse := true, r := some (OpBase_CreateRecord plan) } }
    (OpBase_CreateRecord plan) hcount
  simp only [ProjectConsume_calls]
  rw [hfirst, hsecond]
  have hlater := ProjectConsume_calls_flagged eval plan
    { s with op := { s.op with singleResponse := true, r := none, projection := none }
             deleted := s.deleted ++ [OpBase_CreateRecord plan]
             events := (ProjectConsume_loop eval (OpBase_CreateRecord plan) s.op.exps
               s.op.record_offsets (OpBase_CreateRecord plan) s.events).2 } hchild rfl k
  refine ⟨?_, ?_, ?_⟩
  · exact congrArg (fun x => _ :: x.1) hlater
  · exact congrArg (fun x => x.2.op) hlater
  · exact congrArg (fun x => x.2.child) hlater

/-- C9: a freshly constructed projection without a child, whatever its
expressions: the first ProjectConsume returns one record, the projection of
the expressions evaluated against a fresh empty record, and each of the `k`
calls after it returns NULL, however large `k`; the child is never pulled.
After ProjectReset the same holds again: one record, then NULL on each of
`k2` further calls. -/
theorem ProjectConsume_without_child_emits_one_record
    (eval : AR_ExpNode → Record → SIValue) (plan0 plan : ExecutionPlan)
    (exps : List AR_ExpNode) (child : ChildOp) (deleted : List Record)
    (events : List ValueEvent) (k k2 : Nat) :
    (ProjectConsume_calls eval plan (k + 1)
        { op := (NewProjectOp plan0 exps).1, child := child, deleted := deleted,
          events := events }).1 =
      some (projectionOf eval plan.record_map.length exps
        (NewProjectOp plan0 exps).1.record_offsets (OpBase_CreateRecord plan))
        :: List.replicate k none
    ∧ (ProjectConsume_calls eval plan (k + 1)
        { op := (NewProjectOp plan0 exps).1, child := child, deleted := deleted,
          events := events }).2.child = child
    ∧ (ProjectConsume_calls eval plan (k2 + 1)
        { (ProjectConsume_calls eval plan (k + 1)
            { op := (NewProjectOp plan0 exps).1, child := child, deleted := deleted,
              events := events }).2 with
          op := ProjectReset (ProjectConsume_calls eval plan (k + 1)
            { op := (NewProjectOp plan0 exps).1, child := child, deleted := deleted,
              events := events }).2.op }).1 =
      some (projectionOf eval plan.record_map.length exps
        (NewProjectOp plan0 exps).1.record_offsets (OpBase_CreateRecord plan))
        :: List.replicate k2 none := by
  obtain ⟨h1, h2, h3⟩ := ProjectConsume_calls_unflagged eval plan
    { op := (NewProjectOp plan0 exps).1, child := child, deleted := deleted, events := events }
    rfl rfl rfl k
  refine ⟨h1, h3, ?_⟩
  have hreset := ProjectConsume_calls_unflagged eval plan
    { (ProjectConsume_calls eval plan (k + 1)
        { op := (NewProjectOp plan0 exps).1, child := child, deleted := deleted,
          events := events }).2 with
      op := ProjectReset (ProjectConsume_calls eval plan (k + 1)
        { op := (NewProjectOp plan0 exps).1, child := child, deleted := deleted,
          events := events }).2.op }
    (by simp only [ProjectReset, h2]; rfl) (by simp only [ProjectReset])
    (by simp only [ProjectReset, h2]; rfl) k2
  rw [hreset.1]
  simp only [ProjectReset, h2]
  rfl

/-- C10: a projection with a child, built by the constructor for any
expressions, run with a plan that holds the names the constructor registered.
The offsets are the slots of the resolved names, in expression order.  Each
ProjectConsume pulls exactly one record from the child and returns NULL exactly
when the child does.  Otherwise it returns a record built from a fresh one, in
which the slot of each expression holds the value of that expression on the
pulled record, the last expression winning a shared slot, and every slot that
is no offset is unset whatever the pulled record held. -/
theorem ProjectConsume_with_child_reshapes
    (eval : AR_ExpNode → Record → SIValue) (plan0 plan : ExecutionPlan)
    (exps : List AR_ExpNode) (n : Nat) (child : ChildOp) (deleted : List Record)
    (events : List ValueEvent)
    (hplan : ∃ ext, plan.record_map = (NewProjectOp plan0 exps).2.record_map ++ ext) :
    (NewProjectOp plan0 exps).1.record_offsets =
        exps.map (fun e => (NewProjectOp plan0 exps).2.record_map.indexOf e.resolved_name)
    ∧ (ProjectConsume eval plan
        { op := { (NewProjectOp plan0 exps).1 with childCount := n + 1 }, child := child,
          deleted := deleted, events := events }).2.child = (OpBase_Consume child).2
    ∧ (OpBase_Consume child).2.pulls = child.pulls + 1
    ∧ ((ProjectConsume eval plan
        { op := { (NewProjectOp plan0 exps).1 with childCount := n + 1 }, child := child,
          deleted := deleted, events := events }).1 = none ↔ (OpBase_Consume child).1 = none)
    ∧ ∀ r, (OpBase_Consume child).1 = some r →
        ∃ out : Record, (ProjectConsume eval plan
            { op := { (NewProjectOp plan0 exps).1 with childCount := n + 1 }, child := child,
              deleted := deleted, events := events }).1 = some out
          ∧ out.entries.length = plan.record_map.length
          ∧ (∀ (i : Nat) (e : AR_ExpNode) (o : Nat), exps[i]? = some e →
              (NewProjectOp plan0 exps).1.record_offsets[i]? = some o →
              (∀ i2, i < i2 → (NewProjectOp plan0 exps).1.record_offsets[i2]? ≠ some o) →
              out.entries[o]? = some (projectedEntry (eval e r)))
          ∧ (∀ j, j < plan.record_map.length →
              j ∉ (NewProjectOp plan0 exps).1.record_offsets →
              out.entries[j]? = some Entry.REC_TYPE_UNKNOWN) := by
  obtain ⟨hoff, hlt, _⟩ := NewProjectOp_record_offsets plan0 exps
  obtain ⟨ext, hext⟩ := hplan
  refine ⟨hoff, ?_, ?_, ?_, ?_⟩
  · unfold ProjectConsume OpBase_Consume
    cases hrows : child.rows <;> simp [ProjectConsume_project]
  · unfold OpBase_Consume
    cases hrows : child.rows <;> simp
  · unfold ProjectConsume OpBase_Consume
    cases hrows : child.rows <;> simp [ProjectConsume_project]
  · intro r hr
    have hcons : ProjectConsume eval plan
        { op := { (NewProjectOp plan0 exps).1 with childCount := n + 1 }, child := child,
          deleted := deleted, events := events } =
        ProjectConsume_project eval plan
          { op := { (NewProjectOp plan0 exps).1 with childCount := n + 1, r := some r },
            child := (OpBase_Consume child).2, deleted := deleted, events := events } r := by
      unfold ProjectConsume
      simp [hr]
    have hproj := ProjectConsume_project_eq eval plan
      { op := { (NewProjectOp plan0 exps).1 with childCount := n + 1, r := some r },
        child := (OpBase_Consume child).2, deleted := deleted, events := events } r rfl
    refine ⟨projectionOf eval plan.record_map.length exps
      (NewProjectOp plan0 exps).1.record_offsets r, ?_, projectionOf_length _ _ _ _ _, ?_, ?_⟩
    · rw [hcons, hproj]
      rfl
    · intro i e o he ho hlast
      have holt : o < plan.record_map.length := by
        rw [hoff, List.getElem?_map, he] at ho
        simp at ho
        have hmem : e ∈ exps := List.getElem?_mem he
        have := hlt e hmem
        rw [hext, List.length_append]
        omega
      rw [projectionOf_entry _ _ _ _ _ _ holt, lastExpAt_of_last o exps _ i e he ho hlast]
    · intro j hj hnot
      rw [projectionOf_entry _ _ _ _ _ _ hj, lastExpAt_none_of_not_mem j exps _ hnot]

theorem ProjectConsume_with_child_reshapes_witness :
    (∃ ext, ({ record_map := ["x", "a", "b"] } : ExecutionPlan).record_map =
        (NewProjectOp { record_map := ["x"] } expsAB).2.record_map ++ ext)
    ∧ (NewProjectOp { record_map := ["x"] } expsAB).1.record_offsets = [1, 2]
    ∧ (ProjectConsume evalTree { record_map := ["x", "a", "b"] }
        { op := { (NewProjectOp { record_map := ["x"] } expsAB).1 with childCount := 1 },
          child := { rows := [{ entries := [Entry.REC_TYPE_NODE { entity := some 100, id := 0 },
            Entry.REC_TYPE_UNKNOWN, Entry.REC_TYPE_UNKNOWN] }], pulls := 0 },
          deleted := [], events := [] }).2.child = { rows := [], pulls := 1 } :=
  ⟨⟨[], by decide⟩,
   (ProjectConsume_with_child_reshapes evalTree { record_map := ["x"] }
      { record_map := ["x", "a", "b"] } expsAB 0
      { rows := [{ entries := [Entry.REC_TYPE_NODE { entity := some 100, id := 0 },
          Entry.REC_TYPE_UNKNOWN, Entry.REC_TYPE_UNKNOWN] }], pulls := 0 } [] []
      ⟨[], by decide⟩).1,
   (ProjectConsume_with_child_reshapes evalTree { record_map := ["x"] }
      { record_map := ["x", "a", "b"] } expsAB 0
      { rows := [{ entries := [Entry.REC_TYPE_NODE { entity := some 100, id := 0 },
          Entry.REC_TYPE_UNKNOWN, Entry.REC_TYPE_UNKNOWN] }], pulls := 0 } [] []
      ⟨[], by decide⟩).2.1⟩

/-- One call of consume entered without a held reference leaves none behind;
the deletion log grows by the input record when a record comes out and
stays as it is otherwise. -/
theorem ProjectConsume_refs (eval : AR_ExpNode → Record → SIValue) (plan : ExecutionPlan)
    (s : ProjectState) (hr : s.op.r = none) (hp : s.op.projection = none) :
    (ProjectConsume eval plan s).2.op.r = none
      ∧ (ProjectConsume eval plan s).2.op.projection = none
      ∧ ((ProjectConsume eval plan s).1 = none →
          (ProjectConsume eval plan s).2.deleted = s.deleted)
      ∧ ((ProjectConsume eval plan s).1 ≠ none →
          ∃ input, (ProjectConsume eval plan s).2.deleted = s.deleted ++ [input]
            ∧ (s.op.childCount ≠ 0 → (OpBase_Consume s.child).1 = some input)
            ∧ (s.op.childCount = 0 → input = OpBase_CreateRecord plan)) := by
  unfold ProjectConsume
  by_cases hc : s.op.childCount = 0
  · by_cases hf : s.op.singleResponse = true
    · simp [hc, hf, hr, hp]
    · simp [hc, hf, ProjectConsume_project]
  · cases hpull : (OpBase_Consume s.child).1 with
    | none => simp [hc, hpull, hp]
    | some row => simp [hc, hpull, ProjectConsume_project]

theorem ProjectConsume_calls_refs (eval : AR_ExpNode → Record → SIValue) (plan : ExecutionPlan) :
    ∀ (k : Nat) (s : ProjectState), s.op.r = none → s.op.projection = none →
      (ProjectConsume_calls eval plan k s).2.op.r = none
        ∧ (ProjectConsume_calls eval plan k s).2.op.projection = none := by
  intro k
  induction k with
  | zero => intro s hr hp; exact ⟨hr, hp⟩
  | succ k ih =>
    intro s hr hp
    obtain ⟨h1, h2, _, _⟩ := ProjectConsume_refs eval plan s hr hp
    exact ih _ h1 h2

theorem ProjectFree_deletes_nothing (s : ProjectState) (hr : s.op.r = none)
    (hp : s.op.projection = none) : (ProjectFree s).deleted = s.deleted := by
  simp [ProjectFree, hr, hp]

/-- C15: a projection built by the constructor, with or without children
(`c` of them), after any number `k` of ProjectConsume calls holds neither
`r` nor `projection`.  The call after these, whatever it returns, leaves both
references cleared again; when it returns a record the deletion log has grown
by exactly the input record (the record pulled from the child, or the fresh
record of the child-less case), and when it returns NULL nothing was deleted.
A ProjectFree after it deletes no record. -/
theorem ProjectConsume_keeps_no_record_reference
    (eval : AR_ExpNode → Record → SIValue) (plan0 plan : ExecutionPlan)
    (exps : List AR_ExpNode) (c : Nat) (child : ChildOp) (deleted : List Record)
    (events : List ValueEvent) (k : Nat) :
    (ProjectConsume_calls eval plan k
        { op := { (NewProjectOp plan0 exps).1 with childCount := c }, child := child,
          deleted := deleted, events := events }).2.op.r = none
    ∧ (ProjectConsume_calls eval plan k
        { op := { (NewProjectOp plan0 exps).1 with childCount := c }, child := child,
          deleted := deleted, events := events }).2.op.projection = none
    ∧ ∀ s, s = (ProjectConsume_calls eval plan k
        { op := { (NewProjectOp plan0 exps).1 with childCount := c }, child := child,
          deleted := deleted, events := events }).2 →
      (ProjectConsume eval plan s).2.op.r = none
      ∧ (ProjectConsume eval plan s).2.op.projection = none
      ∧ ((ProjectConsume eval plan s).1 = none →
          (ProjectConsume eval plan s).2.deleted = s.deleted)
      ∧ ((ProjectConsume eval plan s).1 ≠ none →
          ∃ input, (ProjectConsume eval plan s).2.deleted = s.deleted ++ [input]
            ∧ (s.op.childCount ≠ 0 → (OpBase_Consume s.child).1 = some input)
            ∧ (s.op.childCount = 0 → input = OpBase_CreateRecord plan))
      ∧ (ProjectFree (ProjectConsume eval plan s).2).deleted =
          (ProjectConsume eval plan s).2.deleted
      ∧ (ProjectFree (ProjectConsume eval plan s).2).op.r = none
      ∧ (ProjectFree (ProjectConsume eval plan s).2).op.projection = none := by
  obtain ⟨hr, hp⟩ := ProjectConsume_calls_refs eval plan k
    { op := { (NewProjectOp plan0 exps).1 with childCount := c }, child := child,
      deleted := deleted, events := events } rfl rfl
  refine ⟨hr, hp, ?_⟩
  intro s hs
  rw [← hs] at hr hp
  obtain ⟨h1, h2, h3, h4⟩ := ProjectConsume_refs eval plan s hr hp
  refine ⟨h1, h2, h3, h4, ProjectFree_deletes_nothing _ h1 h2, ?_, ?_⟩
  · simp [ProjectFree, h1, h2]
  · simp [ProjectFree, h1, h2]

theorem ProjectConsume_keeps_no_record_reference_witness :
    (ProjectConsume evalTree { record_map := ["a", "b"] }
        (ProjectConsume_calls evalTree { record_map := ["a", "b"] } 1
          { op := { (NewProjectOp { record_map := [] } expsAB).1 with childCount := 1 },
            child := { rows := [Record_New 2, Record_New 2], pulls := 0 },
            deleted := [], events := [] }).2).1 ≠ none
    ∧ (ProjectFree (ProjectConsume evalTree { record_map := ["a", "b"] }
        (ProjectConsume_calls evalTree { record_map := ["a", "b"] } 1
          { op := { (NewProjectOp { record_map := [] } expsAB).1 with childCount := 1 },
            child := { rows := [Record_New 2, Record_New 2], pulls := 0 },
            deleted := [], events := [] }).2).2).deleted =
      (ProjectConsume evalTree { record_map := ["a", "b"] }
        (ProjectConsume_calls evalTree { record_map := ["a", "b"] } 1
          { op := { (NewProjectOp { record_map := [] } expsAB).1 with childCount := 1 },
            child := { rows := [Record_New 2, Record_New 2], pulls := 0 },
            deleted := [], events := [] }).2).2.deleted :=
  ⟨by decide,
   ((ProjectConsume_keeps_no_record_reference evalTree { record_map := [] }
      { record_map := ["a", "b"] } expsAB 1
      { rows := [Record_New 2, Record_New 2], pulls := 0 } [] [] 1).2.2 _ rfl).2.2.2.2.1⟩

/-- The value operations of the projection loop: one treatment per expression,
in expression order. -/
theorem ProjectConsume_loop_events (eval : AR_ExpNode → Record → SIValue) (r : Record) :
    ∀ (exps : List AR_ExpNode) (record_offsets : List Nat) (projection : Record)
      (events : List ValueEvent),
      (ProjectConsume_loop eval r exps record_offsets projection events).2 =
        events ++ ((exps.zip record_offsets).map
          (fun p => valueTreatment p.2 (eval p.1 r))).flatten := by
  intro exps
  induction exps with
  | nil => intro record_offsets projection events; simp [ProjectConsume_loop]
  | cons e es ih =>
    intro record_offsets projection events
    cases record_offsets with
    | nil => simp [ProjectConsume_loop]
    | cons o os =>
      simp only [ProjectConsume_loop, List.zip_cons_cons, List.map_cons, List.flatten_cons]
      rw [ih]
      by_cases h : (eval e r).type.flag &&& SI_GRAPHENTITY = 0
      · simp [valueTreatment, h, SIValue_Persist_type]
      · simp [valueTreatment, h]

/-- C16: the value operations ProjectConsume performs while projecting the
record `r` are, expression after expression, one of two treatments and never
both: a value whose type is no graph entity kind (`v.type & SI_GRAPHENTITY`
is zero, that is neither T_NODE nor T_EDGE) is persisted, then its persisted
form is added, and it is not freed; a graph entity value is added as it is,
without being persisted, and freed once after the add. -/
theorem ProjectConsume_persists_or_frees (eval : AR_ExpNode → Record → SIValue)
    (plan : ExecutionPlan) (s : ProjectState) (r : Record) :
    (ProjectConsume_project eval plan s r).2.events =
        s.events ++ (((s.op.exps.take s.op.exp_count).zip s.op.record_offsets).map
          (fun p => valueTreatment p.2 (eval p.1 r))).flatten
    ∧ (∀ (rec_idx : Nat) (v : SIValue),
        valueTreatment rec_idx v =
          if v.type = SIType.T_NODE ∨ v.type = SIType.T_EDGE then
            [ValueEvent.added rec_idx v, ValueEvent.freed v]
          else [ValueEvent.persisted v, ValueEvent.added rec_idx (SIValue_Persist v)])
    ∧ (∀ (v : SIValue), (v.type.flag &&& SI_GRAPHENTITY = 0) ↔
        (v.type ≠ SIType.T_NODE ∧ v.type ≠ SIType.T_EDGE)) := by
  refine ⟨?_, ?_, fun v => SIType_flag_graphentity v.type⟩
  · unfold ProjectConsume_project
    exact ProjectConsume_loop_events eval r _ _ _ _
  · intro rec_idx v
    unfold valueTreatment
    by_cases h : v.type.flag &&& SI_GRAPHENTITY = 0
    · have hne := (SIType_flag_graphentity v.type).mp h
      simp [h, hne.1, hne.2]
    · have hor : v.type = SIType.T_NODE ∨ v.type = SIType.T_EDGE := by
        by_contra hcon
        push_neg at hcon
        exact h ((SIType_flag_graphentity v.type).mpr hcon)
      simp [h, hor]

theorem array_clone_with_cb_spec :
    ∀ (exps : List AR_ExpNode) (heap : Nat),
      (array_clone_with_cb exps heap).1.length = exps.length
        ∧ (array_clone_with_cb exps heap).2 = heap + exps.length
        ∧ (∀ (i : Nat) (e : AR_ExpNode), exps[i]? = some e →
            (array_clone_with_cb exps heap).1[i]? = some (AR_EXP_Clone (heap + i) e).1)
        ∧ (∀ c ∈ (array_clone_with_cb exps heap).1, heap ≤ c.addr)
        ∧ ((array_clone_with_cb exps heap).1.map (fun e => e.addr)).Nodup := by
  intro exps
  induction exps with
  | nil => intro heap; simp [array_clone_with_cb]
  | cons x rest ih =>
    intro heap
    obtain ⟨h1, h2, h3, h4, h5⟩ := ih (heap + 1)
    simp only [array_clone_with_cb, AR_EXP_Clone] at h1 h2 h3 h4 h5 ⊢
    refine ⟨by simp [h1], by rw [h2]; simp; omega, ?_, ?_, ?_⟩
    · intro i e he
      cases i with
      | zero =>
        simp at he
        simp [he]
      | succ j =>
        simp at he
        have := h3 j e he
        simp only [List.getElem?_cons_succ, this]
        have hj : heap + 1 + j = heap + (j + 1) := by omega
        rw [hj]
    · intro c hc
      rcases List.mem_cons.mp hc with hc0 | hcr
      · rw [hc0]
      · have := h4 c hcr
        omega
    · simp only [List.map_cons, List.nodup_cons]
      refine ⟨?_, h5⟩
      intro hmem
      obtain ⟨c, hc, hca⟩ := List.mem_map.mp hmem
      have := h4 c hc
      omega

theorem array_clone_with_cb_names {α : Type} (f : String → α) :
    ∀ (exps : List AR_ExpNode) (heap : Nat),
      (array_clone_with_cb exps heap).1.map (fun e => f e.resolved_name) =
        exps.map (fun e => f e.resolved_name) := by
  intro exps
  induction exps with
  | nil => intro heap; simp [array_clone_with_cb]
  | cons x rest ih =>
    intro heap
    simp only [array_clone_with_cb, AR_EXP_Clone, List.map_cons]
    rw [ih (heap + 1)]

/-- C18: the clone of a projection, whatever state the original is in, made
with `heap` as the next free address, every expression of the original
living below it.  The clone has as many expressions as the original; its
i-th expression is the AR_EXP_Clone copy of the i-th expression of the
original, with the same resolved name and tree, in an allocation of its own:
no expression of the clone is an expression of the original, and no two
expressions of the clone share an allocation.  It has one offset per
expression, the slot of its resolved name, in the same order; its
single-response flag is clear, it holds no record and has no child yet.  The
original is left as it was. -/
theorem ProjectClone_builds_fresh_operator (plan : ExecutionPlan) (heap : Nat) (op : OpProject)
    (hheap : ∀ e ∈ op.exps, e.addr < heap) :
    (ProjectClone plan heap op).clone.exps.length = op.exps.length
    ∧ (∀ (i : Nat) (e : AR_ExpNode), op.exps[i]? = some e →
        (ProjectClone plan heap op).clone.exps[i]? = some (AR_EXP_Clone (heap + i) e).1)
    ∧ (∀ (i : Nat) (e c : AR_ExpNode), op.exps[i]? = some e →
        (ProjectClone plan heap op).clone.exps[i]? = some c →
        c.resolved_name = e.resolved_name ∧ c.tree = e.tree ∧ c.addr = heap + i)
    ∧ (∀ c ∈ (ProjectClone plan heap op).clone.exps, ∀ e ∈ op.exps, c.addr ≠ e.addr)
    ∧ ((ProjectClone plan heap op).clone.exps.map (fun e => e.addr)).Nodup
    ∧ (ProjectClone plan heap op).heap = heap + op.exps.length
    ∧ (ProjectClone plan heap op).clone.exp_count = op.exps.length
    ∧ (ProjectClone plan heap op).clone.record_offsets.length = op.exps.length
    ∧ (ProjectClone plan heap op).clone.record_offsets =
        op.exps.map (fun e => (ProjectClone plan heap op).plan.record_map.indexOf e.resolved_name)
    ∧ (∀ e ∈ op.exps, (ProjectClone plan heap op).plan.record_map.indexOf e.resolved_name <
        (ProjectClone plan heap op).plan.record_map.length)
    ∧ (ProjectClone plan heap op).clone.singleResponse = false
    ∧ (ProjectClone plan heap op).clone.r = none
    ∧ (ProjectClone plan heap op).clone.projection = none
    ∧ (ProjectClone plan heap op).clone.childCount = 0
    ∧ (ProjectClone plan heap op).original = op := by
  obtain ⟨hlen, hnext, hith, hfresh, hnodup⟩ := array_clone_with_cb_spec op.exps heap
  obtain ⟨hoff, hlt, _⟩ := NewProjectOp_record_offsets plan (array_clone_with_cb op.exps heap).1
  have hoff2 : (ProjectClone plan heap op).clone.record_offsets =
      op.exps.map (fun e =>
        (ProjectClone plan heap op).plan.record_map.indexOf e.resolved_name) := by
    show (NewProjectOp plan (array_clone_with_cb op.exps heap).1).1.record_offsets = _
    rw [hoff]
    exact array_clone_with_cb_names
      (fun name => (NewProjectOp plan (array_clone_with_cb op.exps heap).1).2.record_map.indexOf
        name) op.exps heap
  refine ⟨hlen, hith, ?_, ?_, hnodup, hnext, hlen, ?_, hoff2, ?_, rfl, rfl, rfl, rfl, rfl⟩
  · intro i e c he hc
    have := hith i e he
    have hce : (ProjectClone plan heap op).clone.exps[i]? =
        some (AR_EXP_Clone (heap + i) e).1 := this
    rw [hce] at hc
    simp at hc
    rw [← hc]
    exact ⟨rfl, rfl, rfl⟩
  · intro c hc e he
    have h1 := hfresh c hc
    have h2 := hheap e he
    omega
  · rw [hoff2, List.length_map]
  · intro e he
    have hname : e.resolved_name ∈
        (array_clone_with_cb op.exps heap).1.map (fun x => x.resolved_name) := by
      rw [array_clone_with_cb_names (fun name => name) op.exps heap]
      exact List.mem_map_of_mem (fun x => x.resolved_name) he
    obtain ⟨c, hc, hcn⟩ := List.mem_map.mp hname
    have := hlt c hc
    rw [hcn] at this
    exact this

theorem ProjectClone_builds_fresh_operator_witness :
    (∀ e ∈ (NewProjectOp { record_map := [] } expsAB).1.exps, e.addr < 2)
    ∧ (ProjectClone { record_map := ["a", "b"] } 2
        (NewProjectOp { record_map := [] } expsAB).1).clone.exps.length = 2
    ∧ (ProjectClone { record_map := ["a", "b"] } 2
        (NewProjectOp { record_map := [] } expsAB).1).clone.exps.map (fun e => e.addr) = [2, 3] :=
  ⟨by decide,
   (ProjectClone_builds_fresh_operator { record_map := ["a", "b"] } 2
      (NewProjectOp { record_map := [] } expsAB).1 (by decide)).1,
   by decide⟩

/-- C13: for every record and update context in which an attribute expression
evaluates to null.  With null disallowed (MERGE) the update is reported as an
error, and neither the storage nor the buffers of pending updates are
touched.  With null allowed (SET) no error is raised and the null attribute
is staged with the others for the entity the record holds at the slot of the
context: in the node buffer for a node, in the edge buffer for an edge, the
other buffer untouched; only a record that holds no entity there has nothing
staged.  In neither mode is the storage written: only CommitUpdates does
that. -/
theorem EvalEntityUpdates_rejects_null_unless_allowed
    (eval : AR_ExpNode → Record → SIValue) (s : UpdateState) (r : Record)
    (ctx : EntityUpdateEvalCtx) (p : PropertySetCtx)
    (hp : p ∈ ctx.properties) (hnull : (eval p.exp r).type = SIType.T_NULL) :
    ((EvalEntityUpdates eval s r ctx false).error ≠ none
      ∧ (EvalEntityUpdates eval s r ctx false).gc = s.gc
      ∧ (EvalEntityUpdates eval s r ctx false).node_updates = s.node_updates
      ∧ (EvalEntityUpdates eval s r ctx false).edge_updates = s.edge_updates)
    ∧ ((EvalEntityUpdates eval s r ctx true).error = s.error
      ∧ (EvalEntityUpdates eval s r ctx true).gc = s.gc
      ∧ (p.attr_name, eval p.exp r) ∈
          ctx.properties.map (fun q => (q.attr_name, eval q.exp r))
      ∧ (∀ n : Node, r.entries[ctx.record_idx]? = some (Entry.REC_TYPE_NODE n) →
          (EvalEntityUpdates eval s r ctx true).node_updates =
            s.node_updates ++
              [{ ge := n.id
                 attributes := ctx.properties.map (fun q => (q.attr_name, eval q.exp r)) }]
          ∧ (EvalEntityUpdates eval s r ctx true).edge_updates = s.edge_updates)
      ∧ (∀ e : Edge, r.entries[ctx.record_idx]? = some (Entry.REC_TYPE_EDGE e) →
          (EvalEntityUpdates eval s r ctx true).edge_updates =
            s.edge_updates ++
              [{ ge := e.id
                 attributes := ctx.properties.map (fun q => (q.attr_name, eval q.exp r)) }]
          ∧ (EvalEntityUpdates eval s r ctx true).node_updates = s.node_updates)
      ∧ ((∀ n : Node, r.entries[ctx.record_idx]? ≠ some (Entry.REC_TYPE_NODE n)) →
          (∀ e : Edge, r.entries[ctx.record_idx]? ≠ some (Entry.REC_TYPE_EDGE e)) →
          EvalEntityUpdates eval s r ctx true = s))
    ∧ ∀ (allow_null : Bool), (EvalEntityUpdates eval s r ctx allow_null).gc = s.gc := by
  have hany : (ctx.properties.map (fun q => (q.attr_name, eval q.exp r))).any
      (fun a => a.2.type == SIType.T_NULL) = true := by
    rw [List.any_eq_true]
    exact ⟨(p.attr_name, eval p.exp r), List.mem_map_of_mem _ hp, by simp [hnull]⟩
  have hgc : ∀ (allow_null : Bool), (EvalEntityUpdates eval s r ctx allow_null).gc = s.gc := by
    intro allow_null
    unfold EvalEntityUpdates
    dsimp only
    split
    · rfl
    · split <;> rfl
  have herr : (EvalEntityUpdates eval s r ctx true).error = s.error := by
    unfold EvalEntityUpdates
    dsimp only
    split
    · rename_i hcond
      simp at hcond
    · split <;> rfl
  refine ⟨?_, ⟨herr, hgc true, List.mem_map_of_mem _ hp, ?_, ?_, ?_⟩, hgc⟩
  · simp [EvalEntityUpdates, hany]
  · intro n hnode
    simp [EvalEntityUpdates, hnode]
  · intro e hedge
    simp [EvalEntityUpdates, hedge]
  · intro hn he
    unfold EvalEntityUpdates
    dsimp only
    split
    · rename_i hcond
      simp at hcond
    · split
      · rename_i n hslot
        exact absurd hslot (hn n)
      · rename_i e hslot
        exact absurd hslot (he e)
      · rfl

theorem EvalEntityUpdates_rejects_null_unless_allowed_witness :
    (({ attr_name := "v", exp := { resolved_name := "x", tree := 0, addr := 0 } } :
          PropertySetCtx) ∈
        [({ attr_name := "v", exp := { resolved_name := "x", tree := 0, addr := 0 } } :
          PropertySetCtx)]
      ∧ (evalNull { resolved_name := "x", tree := 0, addr := 0 }
          { entries := [Entry.REC_TYPE_EDGE { entity := some 100, id := 0 }] }).type =
            SIType.T_NULL)
    ∧ (EvalEntityUpdates evalNull
        { gc := { applied := [] }, node_updates := [], edge_updates := [], error := none }
        { entries := [Entry.REC_TYPE_EDGE { entity := some 100, id := 0 }] }
        { record_idx := 0,
          properties :=
            [{ attr_name := "v", exp := { resolved_name := "x", tree := 0, addr := 0 } }] }
        false).error ≠ none :=
  ⟨by decide,
   (EvalEntityUpdates_rejects_null_unless_allowed evalNull
      { gc := { applied := [] }, node_updates := [], edge_updates := [], error := none }
      { entries := [Entry.REC_TYPE_EDGE { entity := some 100, id := 0 }] }
      { record_idx := 0,
        properties :=
          [{ attr_name := "v", exp := { resolved_name := "x", tree := 0, addr := 0 } }] }
      { attr_name := "v", exp := { resolved_name := "x", tree := 0, addr := 0 } }
      (by decide) (by decide)).1.1⟩

theorem NodeByIdSeekInit_currentId (g : Graph) (op : RT_NodeByIdSeek) (c : Nat) :
    NodeByIdSeekInit g { op with currentId := c } =
      { NodeByIdSeekInit g op with currentId := c } := by
  by_cases hc : op.childCount > 0 <;> simp [NodeByIdSeekInit, hc]

theorem NodeByIdSeekInit_idem (g : Graph) (op : RT_NodeByIdSeek) :
    NodeByIdSeekInit g (NodeByIdSeekInit g op) = NodeByIdSeekInit g op := by
  by_cases hc : op.childCount > 0 <;> simp [NodeByIdSeekInit, hc]

/-- Calls made on an initialised child-less operator move its cursor only. -/
theorem NodeByIdSeek_after_initialised (plan : ExecutionPlan) (g : Graph) :
    ∀ (history : List SeekCall) (op op1 : RT_NodeByIdSeek),
      NodeByIdSeekInit g op = op → NodeByIdSeek_after plan g history op = some op1 →
      op1 = { op with currentId := op1.currentId } := by
  intro history
  induction history with
  | nil =>
    intro op op1 _ h
    simp [NodeByIdSeek_after] at h
    rw [← h]
  | cons c rest ih =>
    intro op op1 hfix h
    cases c with
    | init =>
      simp only [NodeByIdSeek_after] at h
      rw [hfix] at h
      exact ih op op1 hfix h
    | consume =>
      simp only [NodeByIdSeek_after] at h
      split at h
      · simp at h
      · rename_i r op2 hcons
        have hf := NodeByIdSeekConsume_fields plan g _ _ _ hcons
        have hfix2 : NodeByIdSeekInit g op2 = op2 := by
          rw [hf, NodeByIdSeekInit_currentId, hfix]
        have h2 := ih op2 op1 hfix2 h
        rw [h2, hf]

/-- C11: NodeByIdSeekReset returns OP_OK and changes the cursor only: the state
after it is the state before it with currentId set to minId, so minId, maxId,
the held child record and the slot index are the ones before; a second Reset
changes nothing more.  For a child-less operator, constructed, initialised
and then taken through any calls of Init and Consume that return, the run of
Consume calls after a Reset is the run made right after Init. -/
theorem NodeByIdSeekReset_rewinds_cursor_only (op : RT_NodeByIdSeek)
    (plan0 plan : ExecutionPlan) (alias_ : String) (range : UnsignedRange) (g : Graph)
    (history : List SeekCall) (op1 : RT_NodeByIdSeek)
    (hreach : NodeByIdSeek_after plan g history
      (NodeByIdSeekInit g (RT_NewNodeByIdSeekOp plan0 alias_ range).1) = some op1) :
    (NodeByIdSeekReset op).1 = RT_OpResult.OP_OK
    ∧ (NodeByIdSeekReset op).2 = { op with currentId := op.minId }
    ∧ (NodeByIdSeekReset op).2.minId = op.minId
    ∧ (NodeByIdSeekReset op).2.maxId = op.maxId
    ∧ (NodeByIdSeekReset op).2.child_record = op.child_record
    ∧ (NodeByIdSeekReset op).2.nodeRecIdx = op.nodeRecIdx
    ∧ NodeByIdSeekReset (NodeByIdSeekReset op).2 = NodeByIdSeekReset op
    ∧ (NodeByIdSeekReset op1).2 =
        NodeByIdSeekInit g (RT_NewNodeByIdSeekOp plan0 alias_ range).1
    ∧ ∀ k, NodeByIdSeekConsume_calls plan g k (NodeByIdSeekReset op1).2 =
        NodeByIdSeekConsume_calls plan g k
          (NodeByIdSeekInit g (RT_NewNodeByIdSeekOp plan0 alias_ range).1) := by
  have hstate : (NodeByIdSeekReset op1).2 =
      NodeByIdSeekInit g (RT_NewNodeByIdSeekOp plan0 alias_ range).1 := by
    have h := NodeByIdSeek_after_initialised plan g history _ _ (NodeByIdSeekInit_idem g _) hreach
    rw [h]
    simp [NodeByIdSeekReset, NodeByIdSeekInit, RT_NewNodeByIdSeekOp]
  refine ⟨rfl, rfl, rfl, rfl, rfl, rfl, rfl, hstate, ?_⟩
  intro k
  rw [hstate]

theorem NodeByIdSeekReset_rewinds_cursor_only_witness :
    NodeByIdSeek_after { record_map := ["n"] } storage024
        [SeekCall.consume, SeekCall.consume]
        (NodeByIdSeekInit storage024 (RT_NewNodeByIdSeekOp { record_map := [] } "n"
          { min := 0, max := 5, include_min := true, include_max := true }).1)
      = some seekCursorAt3
    ∧ (NodeByIdSeekReset seekCursorAt3).2 =
        NodeByIdSeekInit storage024 (RT_NewNodeByIdSeekOp { record_map := [] } "n"
          { min := 0, max := 5, include_min := true, include_max := true }).1 :=
  ⟨by decide,
   (NodeByIdSeekReset_rewinds_cursor_only seekCursorAt3
      { record_map := [] } { record_map := ["n"] } "n"
      { min := 0, max := 5, include_min := true, include_max := true } storage024
      [SeekCall.consume, SeekCall.consume] seekCursorAt3 (by decide)).2.2.2.2.2.2.2.1⟩

/-- Away from the end of the 64-bit space a seek returns and moves the cursor
forward: past the node it returns, or past maxId when it returns none. -/
theorem SeekNextNode_cursor_increases (g : Graph) (op : RT_NodeByIdSeek)
    (hc : op.currentId + 1 < UINT64_SIZE) (hmax : op.maxId + 2 < UINT64_SIZE) :
    ∃ nd op1, _SeekNextNode g op = some (nd, op1) ∧ op.currentId < op1.currentId
      ∧ (nd.entity ≠ none → op1.currentId = nd.id + 1 ∧ op.currentId ≤ nd.id
          ∧ nd.id ≤ op.maxId ∧ Graph_GetNode g nd.id = some nd
          ∧ (liveNodesIn g op.currentId op.maxId).head? = some nd)
      ∧ (nd.entity = none → liveNodesIn g op.currentId op.maxId = []) := by
  by_cases hle : op.currentId ≤ op.maxId + 1
  · have heq := SeekNextNode_eq g op hle (by omega)
    cases hh : (liveNodesIn g op.currentId op.maxId).head? with
    | none =>
      rw [hh] at heq
      refine ⟨_, _, heq, ?_, ?_, ?_⟩
      · have : (op.maxId + 2) % UINT64_SIZE = op.maxId + 2 := Nat.mod_eq_of_lt hmax
        simp only [this]
        omega
      · intro h
        exact absurd rfl h
      · intro _
        exact List.head?_eq_none_iff.mp hh
    | some nd =>
      rw [hh] at heq
      have hmem := (mem_liveNodesIn g op.currentId op.maxId nd).mp (List.mem_of_mem_head? hh)
      refine ⟨_, _, heq, ?_, ?_, ?_⟩
      · simp only
        omega
      · intro _
        exact ⟨rfl, hmem.1, hmem.2.1, hmem.2.2, rfl⟩
      · intro h
        have := (Graph_GetNode_some hmem.2.2).2.1
        exact absurd h this
  · have heq := SeekNextNode_outOfBounds g op (by omega)
    refine ⟨_, _, heq, ?_, ?_, ?_⟩
    · have : (op.currentId + 1) % UINT64_SIZE = op.currentId + 1 := Nat.mod_eq_of_lt hc
      simp only [this]
      omega
    · intro h
      exact absurd rfl h
    · intro _
      exact liveNodesIn_empty g _ _ (by omega)

/-- C19: the operator built for the single identifier UINT64_MAX and
initialised on a storage with one slot has maxId = 0, below 2^64 - 1, and its
cursor at UINT64_MAX.  `_SeekNextNode` returns at once, no node, and its
closing `currentId++` wraps the cursor to 0: the cursor is not greater than
on entry. -/
theorem SeekNextNode_cursor_wraps_below_entry :
    seekLastId.maxId = 0 ∧ seekLastId.maxId < UINT64_MAX
      ∧ seekLastId.currentId = UINT64_MAX
      ∧ _SeekNextNode storage0 seekLastId =
          some (GE_NEW_NODE, { seekLastId with currentId := 0 })
      ∧ ¬ (∃ nd op1, _SeekNextNode storage0 seekLastId = some (nd, op1)
            ∧ seekLastId.currentId < op1.currentId) := by
  have hseek : _SeekNextNode storage0 seekLastId =
      some (GE_NEW_NODE, { seekLastId with currentId := 0 }) :=
    SeekNextNode_outOfBounds storage0 seekLastId (by decide)
  refine ⟨by decide, by decide, by decide, hseek, ?_⟩
  rintro ⟨nd, op1, h, hlt⟩
  rw [hseek] at h
  simp at h
  rw [← h.2] at hlt
  simp at hlt

end RedisGraph
